import Mathlib

/-!
# zoomer: the chat-command interpreter and the onmessage dispatch callback

A shallow embedding of `cmd/zoomer/main.go`.

* Go strings are byte sequences; a byte is a `Nat` below 256.
* The standard-library functions the program calls (`strings.HasPrefix`,
  `strings.TrimPrefix`, `strings.Fields`, `strings.Join`, `strconv.Atoi`)
  are rendered from the Go standard library.
* The `zoom` package is an external collaborator: the session is a log of
  the calls made on it, together with the results it hands back.
-/

namespace Zoomer

/-! ## Go strings -/

/-- A Go string: a finite sequence of bytes. -/
abbrev GoString := List Nat

/-- UTF-8 encoding of one code point, as the Go compiler encodes the
characters of a string literal. -/
def utf8Encode (r : Nat) : List Nat :=
  if r < 0x80 then [r]
  else if r < 0x800 then [0xC0 + r / 64, 0x80 + r % 64]
  else if r < 0x10000 then [0xE0 + r / 4096, 0x80 + r / 64 % 64, 0x80 + r % 64]
  else [0xF0 + r / 262144, 0x80 + r / 4096 % 64, 0x80 + r / 64 % 64, 0x80 + r % 64]

/-- The bytes of a Go string literal. -/
def lit (s : String) : GoString :=
  s.toList.flatMap (fun c => utf8Encode c.toNat)

/-- Go `strings.HasPrefix`: `len(s) >= len(pre) && s[:len(pre)] == pre`. -/
def strings.HasPrefix (s pre : GoString) : Bool :=
  decide (s.length ≥ pre.length) && decide (s.take pre.length = pre)

/-- Go `strings.TrimPrefix`: `s[len(pre):]` when `s` has the prefix, else `s`. -/
def strings.TrimPrefix (s pre : GoString) : GoString :=
  if strings.HasPrefix s pre then s.drop pre.length else s

/-- Go `strings.Join`: the elements with `sep` written before every element
but the first. -/
def strings.Join : List GoString → GoString → GoString
  | [], _ => []
  | [a], _ => a
  | a :: rest, sep => a ++ rest.flatMap (fun s => sep ++ s)

/-- Go `strings.asciiSpace`: the table marks tab, newline, vertical tab, form
feed, carriage return and space. -/
def asciiSpace (b : Nat) : Bool :=
  b == 9 || b == 10 || b == 11 || b == 12 || b == 13 || b == 32

/-- The ASCII path of `strings.Fields`. The first argument is the field being
read (`s[fieldStart:i]`), `none` while spaces are skipped. -/
def fieldsASCII : Option GoString → List Nat → List GoString
  | none, [] => []
  | some fld, [] => [fld]
  | none, b :: rest =>
    if asciiSpace b then fieldsASCII none rest else fieldsASCII (some [b]) rest
  | some fld, b :: rest =>
    if asciiSpace b then fld :: fieldsASCII none rest
    else fieldsASCII (some (fld ++ [b])) rest

/-- Go `utf8.RuneError`, the replacement code point U+FFFD. -/
def RuneError : Nat := 0xFFFD

/-- Go `utf8.first` with `utf8.acceptRanges`: for a leading byte at or above
0x80, the length of the sequence and the accepted range of the second byte;
`none` for a byte that cannot start a sequence. -/
def utf8First (s0 : Nat) : Option (Nat × Nat × Nat) :=
  if s0 < 0xC2 then none
  else if s0 < 0xE0 then some (2, 0x80, 0xBF)
  else if s0 = 0xE0 then some (3, 0xA0, 0xBF)
  else if s0 = 0xED then some (3, 0x80, 0x9F)
  else if s0 < 0xF0 then some (3, 0x80, 0xBF)
  else if s0 = 0xF0 then some (4, 0x90, 0xBF)
  else if s0 < 0xF4 then some (4, 0x80, 0xBF)
  else if s0 = 0xF4 then some (4, 0x80, 0x8F)
  else none

/-- A continuation byte lies in 0x80..0xBF (`locb`, `hicb`). -/
def isCont (b : Nat) : Bool := decide (0x80 ≤ b) && decide (b ≤ 0xBF)

/-- Go `utf8.DecodeRuneInString`: the first code point of `s` and its width in
bytes; an invalid or truncated sequence gives `(RuneError, 1)`, the empty
string `(RuneError, 0)`. -/
def DecodeRuneInString : List Nat → Nat × Nat
  | [] => (RuneError, 0)
  | s0 :: t =>
    if s0 < 0x80 then (s0, 1)
    else
      match utf8First s0 with
      | none => (RuneError, 1)
      | some (sz, lo, hi) =>
        if t.length + 1 < sz then (RuneError, 1)
        else
          match t with
          | [] => (RuneError, 1)
          | s1 :: t1 =>
            if s1 < lo || hi < s1 then (RuneError, 1)
            else if sz ≤ 2 then (s0 % 32 * 64 + s1 % 64, 2)
            else
              match t1 with
              | [] => (RuneError, 1)
              | s2 :: t2 =>
                if !isCont s2 then (RuneError, 1)
                else if sz ≤ 3 then (s0 % 16 * 4096 + s1 % 64 * 64 + s2 % 64, 3)
                else
                  match t2 with
                  | [] => (RuneError, 1)
                  | s3 :: _ =>
                    if !isCont s3 then (RuneError, 1)
                    else (s0 % 8 * 262144 + s1 % 64 * 4096 + s2 % 64 * 64 + s3 % 64, 4)

/-- Go `unicode.IsSpace`: in Latin-1 the six ASCII spaces, U+0085 and U+00A0;
beyond it the code points of the `White_Space` table. -/
def IsSpace (r : Nat) : Bool :=
  if r ≤ 0xFF then
    r == 9 || r == 10 || r == 11 || r == 12 || r == 13 || r == 32 || r == 0x85 || r == 0xA0
  else
    r == 0x1680 || (decide (0x2000 ≤ r) && decide (r ≤ 0x200A)) || r == 0x2028 || r == 0x2029
      || r == 0x202F || r == 0x205F || r == 0x3000

/-- Go `strings.FieldsFunc`, the loop `for end, rune := range s`. `skip` counts
the bytes still to pass of the code point decoded last; `cur` is the field
being read (`s[start:end]`), `none` when `start < 0`. -/
def fieldsFuncLoop (f : Nat → Bool) : List Nat → Nat → Option GoString → List GoString
  | [], _, none => []
  | [], _, some fld => [fld]
  | b :: rest, skip + 1, cur =>
    fieldsFuncLoop f rest skip (cur.map (fun fld => fld ++ [b]))
  | b :: rest, 0, cur =>
    let rw := DecodeRuneInString (b :: rest)
    if f rw.1 then
      match cur with
      | some fld => fld :: fieldsFuncLoop f rest (rw.2 - 1) none
      | none => fieldsFuncLoop f rest (rw.2 - 1) none
    else
      fieldsFuncLoop f rest (rw.2 - 1) (some (cur.getD [] ++ [b]))

/-- Go `strings.FieldsFunc`. -/
def strings.FieldsFunc (s : GoString) (f : Nat → Bool) : List GoString :=
  fieldsFuncLoop f s 0 none

/-- Go `strings.Fields`: the ASCII path when no byte has its high bit set,
`FieldsFunc(s, unicode.IsSpace)` otherwise. -/
def strings.Fields (s : GoString) : List GoString :=
  if s.all (fun b => decide (b < 0x80)) then fieldsASCII none s
  else strings.FieldsFunc s IsSpace

/-! ## strconv.Atoi -/

/-- The two error values of `strconv`: `ErrSyntax` and `ErrRange`. -/
inductive NumError
  | ErrSyntax
  | ErrRange
  deriving DecidableEq, Repr

/-- A Go signed integer of `w` bits keeps the low `w` bits of a result
(two's complement). -/
def wrapInt (w : Nat) (x : Int) : Int :=
  (x + 2 ^ (w - 1)) % 2 ^ w - 2 ^ (w - 1)

/-- Subtraction on bytes, `a - b` in Go for `a`, `b` of type `byte`: the
result wraps modulo 256. -/
def byteSub (a b : Nat) : Nat := (a + 256 - b) % 256

/-- Go `maxUint64`. -/
def maxUint64 : Nat := 2 ^ 64 - 1

/-- A result of `uint64` arithmetic keeps its low 64 bits. -/
def wrapUint64 (x : Nat) : Nat := x % 2 ^ 64

/-- The digit loop of Go `strconv.ParseUint` at base 10 on `uint64`: a byte
that is not a decimal digit is a syntax error (a letter is a digit of value
10 or more, so it is refused as well; `_` is only read at base 0); a value
that passes `cutoff = maxUint64/10 + 1` before the multiplication, or `maxVal`
after the addition, is a range error and the result is `maxVal`. -/
def parseUintLoop (maxVal : Nat) : List Nat → Nat → Nat × Option NumError
  | [], n => (n, none)
  | c :: rest, n =>
    if 48 ≤ c ∧ c ≤ 57 then
      let d := byteSub c 48
      if n ≥ maxUint64 / 10 + 1 then (maxVal, some NumError.ErrRange)
      else
        let n10 := wrapUint64 (n * 10)
        let n1 := wrapUint64 (n10 + d)
        if n1 < n10 ∨ n1 > maxVal then (maxVal, some NumError.ErrRange)
        else parseUintLoop maxVal rest n1
    else (0, some NumError.ErrSyntax)

/-- Go `strconv.ParseUint(s, 10, 0)` on a platform whose `int` has `intSize`
bits. -/
def strconv.ParseUint (intSize : Nat) (s : GoString) : Nat × Option NumError :=
  if s = [] then (0, some NumError.ErrSyntax)
  else parseUintLoop (2 ^ intSize - 1) s 0

/-- The second half of Go `strconv.ParseInt(s, 10, 0)`, "convert unsigned and
check range": `ParseUint` on the text after the sign, then the check against
`cutoff = 1 << (intSize-1)`. -/
def parseIntTail (intSize : Nat) (neg : Bool) (digits : GoString) : Int × Option NumError :=
  let r := strconv.ParseUint intSize digits
  if r.2 = some NumError.ErrSyntax then (0, some NumError.ErrSyntax)
  else
    let un := r.1
    let cutoff := 2 ^ (intSize - 1)
    if !neg && decide (un ≥ cutoff) then (Int.ofNat (cutoff - 1), some NumError.ErrRange)
    else if neg && decide (un > cutoff) then (- Int.ofNat cutoff, some NumError.ErrRange)
    else (if neg then - Int.ofNat un else Int.ofNat un, none)

/-- Go `strconv.ParseInt(s, 10, 0)`: the empty string is a syntax error; a
leading `+` or `-` is picked off; the rest is converted and checked. -/
def strconv.ParseInt (intSize : Nat) (s : GoString) : Int × Option NumError :=
  match s with
  | [] => (0, some NumError.ErrSyntax)
  | s0 :: t =>
    if s0 = 43 then parseIntTail intSize false t
    else if s0 = 45 then parseIntTail intSize true t
    else parseIntTail intSize false (s0 :: t)

/-- The digit loop of the fast path of Go `strconv.Atoi`: `ch -= '0'` on a
byte, `ch > 9` is a syntax error, `n = n*10 + int(ch)` on `int`. -/
def atoiFastLoop (intSize : Nat) : List Nat → Int → Option Int
  | [], n => some n
  | ch :: rest, n =>
    let c := byteSub ch 48
    if c > 9 then none
    else atoiFastLoop intSize rest (wrapInt intSize (n * 10 + Int.ofNat c))

/-- Go `strconv.Atoi` on a platform whose `int` has `intSize` bits: the value
and the error (`none` is `nil`). Short inputs take the fast path, the others
`ParseInt(s, 10, 0)`. -/
def strconv.Atoi (intSize : Nat) (s : GoString) : Int × Option NumError :=
  let sLen := s.length
  if (intSize = 32 ∧ 0 < sLen ∧ sLen < 10) ∨ (intSize = 64 ∧ 0 < sLen ∧ sLen < 19) then
    match s with
    | [] => (0, some NumError.ErrSyntax)
    | s0 :: t =>
      let digits := if s0 = 45 ∨ s0 = 43 then t else s
      if (s0 = 45 ∨ s0 = 43) ∧ digits.length < 1 then (0, some NumError.ErrSyntax)
      else
        match atoiFastLoop intSize digits 0 with
        | none => (0, some NumError.ErrSyntax)
        | some n => (if s0 = 45 then wrapInt intSize (- n) else n, none)
  else
    let r := strconv.ParseInt intSize s
    (wrapInt intSize r.1, r.2)

/-- The value of the decimal digit written by the byte `c`, `'0'` being 48. -/
def digitValue (c : Nat) : Nat := c - 48

/-- The number that a run of decimal digits writes, most significant digit
first, continuing from the value `n` read so far. -/
def decimalValue : List Nat → Nat → Nat
  | [], n => n
  | c :: rest, n => decimalValue rest (n * 10 + digitValue c)

/-- The reading of a run of digits in the words of the specification: decimal
digits, one at least, and the number written, negated under a minus sign,
lying within the range of an `int` of `intSize` bits. -/
def readDigits (intSize : Nat) (neg : Bool) (digits : GoString) : Option Int :=
  if digits ≠ [] ∧ ∀ c ∈ digits, 48 ≤ c ∧ c ≤ 57 then
    let v : Int :=
      if neg then - Int.ofNat (decimalValue digits 0) else Int.ofNat (decimalValue digits 0)
    if - 2 ^ (intSize - 1) ≤ v ∧ v < 2 ^ (intSize - 1) then some v else none
  else none

/-- The reading of a base-10 integer in the words of the specification, to be
compared with `strconv.Atoi`: an optional sign (`+` is 43, `-` is 45), then
decimal digits, within the range of `int`. -/
def parseBase10 (intSize : Nat) (s : GoString) : Option Int :=
  match s with
  | [] => none
  | s0 :: t =>
    if s0 = 43 then readDigits intSize false t
    else if s0 = 45 then readDigits intSize true t
    else readDigits intSize false (s0 :: t)

/-! ## The session -/

/-- A Go `error` value made by `errors.New`, or handed back by the session. -/
structure GoError where
  msg : GoString
  deriving DecidableEq, Repr

/-- Go `errors.New`. -/
def errors.New (text : GoString) : GoError := ⟨text⟩

/-- One call on the session, with its arguments. -/
inductive SessionCall
  | RenameMe (name : GoString)
  | SetAudioMuted (muted : Bool)
  | SetVideoMuted (muted : Bool)
  | SetScreenShareMuted (muted : Bool)
  | SetChatLevel (level : Int)
  | SendChatMessage (dest : Int) (text : GoString)
  deriving DecidableEq, Repr

/-- Modelled from the spec: `zoom.ZoomSession`, whose package `pkg/zoom` is not
part of the sources at hand. The session is the external collaborator of
section 6: `UserID` is `JoinInfo.UserID` (`SelfUserID`), `calls` is the log of
the calls made on it so far, oldest first, and `sendResult k` is the error
(`none` is `nil`) that `SendChatMessage` returns when it is the call number
`k` of the log. -/
structure ZoomSession where
  UserID : Int
  calls : List SessionCall
  sendResult : Nat → Option GoError

/-- The session after one more call. -/
def ZoomSession.record (s : ZoomSession) (c : SessionCall) : ZoomSession :=
  { s with calls := s.calls ++ [c] }

/-- Modelled from the spec: `RenameMe(newName: string)`. -/
def ZoomSession.RenameMe (s : ZoomSession) (name : GoString) : ZoomSession :=
  s.record (SessionCall.RenameMe name)

/-- Modelled from the spec: `SetAudioMuted(bool)`. -/
def ZoomSession.SetAudioMuted (s : ZoomSession) (muted : Bool) : ZoomSession :=
  s.record (SessionCall.SetAudioMuted muted)

/-- Modelled from the spec: `SetVideoMuted(bool)`. -/
def ZoomSession.SetVideoMuted (s : ZoomSession) (muted : Bool) : ZoomSession :=
  s.record (SessionCall.SetVideoMuted muted)

/-- Modelled from the spec: `SetScreenShareMuted(bool)`. -/
def ZoomSession.SetScreenShareMuted (s : ZoomSession) (muted : Bool) : ZoomSession :=
  s.record (SessionCall.SetScreenShareMuted muted)

/-- Modelled from the spec: `SetChatLevel(level: int)`. -/
def ZoomSession.SetChatLevel (s : ZoomSession) (level : Int) : ZoomSession :=
  s.record (SessionCall.SetChatLevel level)

/-- Modelled from the spec: `SendChatMessage(destination, text) → error`. The
call is logged and the session's answer for this call is returned. -/
def ZoomSession.SendChatMessage (s : ZoomSession) (dest : Int) (text : GoString) :
    Option GoError × ZoomSession :=
  (s.sendResult s.calls.length, s.record (SessionCall.SendChatMessage dest text))

/-- Modelled from the spec: `zoom.ConferenceChatIndication`, the fields the
program reads: `Text` (the raw chat body) and `DestNodeID` (`DestinationID`). -/
structure ConferenceChatIndication where
  DestNodeID : Int
  Text : GoString
  deriving DecidableEq, Repr

/-- How a Go function returning `error` ends: it returns (`none` is `nil`), or
it panics. -/
inductive Result
  | returned (err : Option GoError)
  | panicked
  deriving DecidableEq, Repr

/-- The end of a run: how it ended and the session as it left it. -/
structure Outcome where
  result : Result
  session : ZoomSession

/-! ## handleChatMessage -/

/-- The constant `MESSAGE_PREFIX`. -/
def MESSAGE_PREFIX : GoString := lit "++"

/-- Go `words[1:]`: a run-time panic when `1 > len(words)`. -/
def sliceFrom1 (words : List GoString) : Option (List GoString) :=
  if 1 ≤ words.length then some (words.drop 1) else none

/-- Go `xs[0]`: a run-time panic when `xs` is empty. -/
def index0 (xs : List GoString) : Option GoString :=
  xs.head?

/-- The function `handleChatMessage` of `main.go`; `intSize` is the width of
`int` on the platform. The values the session calls return are dropped, as in
the source. -/
def handleChatMessage (intSize : Nat) (session : ZoomSession)
    (body : ConferenceChatIndication) (messageText : GoString) : Outcome :=
  if !strings.HasPrefix messageText MESSAGE_PREFIX then
    ⟨Result.returned none, session⟩
  else
    let messageText := strings.TrimPrefix messageText MESSAGE_PREFIX
    let words := strings.Fields messageText
    let wordsCount := words.length
    if wordsCount < 1 then
      ⟨Result.returned (some (errors.New (lit "No command provided after prefix"))), session⟩
    else
      match sliceFrom1 words with
      | none => ⟨Result.panicked, session⟩
      | some args =>
        let argsCount := args.length
        match index0 words with
        | none => ⟨Result.panicked, session⟩
        | some verb =>
          if verb = lit "rename" then
            if argsCount > 0 then
              ⟨Result.returned none, session.RenameMe (strings.Join args (lit " "))⟩
            else ⟨Result.returned none, session⟩
          else if verb = lit "mute" then
            if argsCount = 0 then
              ⟨Result.returned none, (session.SetAudioMuted true).SetVideoMuted true⟩
            else
              match index0 args with
              | none => ⟨Result.panicked, session⟩
              | some a0 =>
                if a0 = lit "on" then
                  ⟨Result.returned none, (session.SetAudioMuted true).SetVideoMuted true⟩
                else if a0 = lit "off" then
                  ⟨Result.returned none, (session.SetAudioMuted false).SetVideoMuted false⟩
                else ⟨Result.returned none, session⟩
          else if verb = lit "screenshare" then
            if argsCount = 0 then
              ⟨Result.returned none, session.SetScreenShareMuted false⟩
            else
              match index0 args with
              | none => ⟨Result.panicked, session⟩
              | some a0 =>
                if a0 = lit "on" then
                  ⟨Result.returned none, session.SetScreenShareMuted false⟩
                else if a0 = lit "off" then
                  ⟨Result.returned none, session.SetScreenShareMuted true⟩
                else ⟨Result.returned none, session⟩
          else if verb = lit "chatlevel" then
            if argsCount > 0 then
              match index0 args with
              | none => ⟨Result.panicked, session⟩
              | some a0 =>
                let r := strconv.Atoi intSize a0
                if r.2 = none then
                  ⟨Result.returned none, session.SetChatLevel r.1⟩
                else ⟨Result.returned none, session⟩
            else ⟨Result.returned none, session⟩
          else
            ⟨Result.returned none,
              (session.SendChatMessage body.DestNodeID
                (lit "I don't understand this message so I am echoing it: " ++ body.Text)).2⟩

/-! ## The onmessage callback of main -/

/-- Modelled from the spec: `zoom.GenericZoomMessage`, the envelope: the kind
tag `Evt` and the opaque payload. -/
structure GenericZoomMessage where
  Evt : Int
  Body : GoString
  deriving DecidableEq, Repr

/-- Modelled from the spec: one entry of `Add` in a roster indication, with
its `ID` and its display name `Dn2`. -/
structure Person where
  ID : Int
  Dn2 : GoString
  deriving DecidableEq, Repr

/-- Modelled from the spec: `zoom.ConferenceRosterIndication`, the field the
program reads: the ordered sequence `Add`. -/
structure ConferenceRosterIndication where
  Add : List Person
  deriving DecidableEq, Repr

/-- The dynamic value behind the `interface{}` that `zoom.GetMessageBody`
returns: a roster indication, a chat indication, or a value of any other
type. -/
inductive MessageBody
  | roster (v : ConferenceRosterIndication)
  | chat (v : ConferenceChatIndication)
  | other
  deriving DecidableEq, Repr

/-- What `main.go` takes from package `zoom`, which is not part of the sources
at hand: the three event kinds it names, the broadcast target, and the
decoder `GetMessageBody`, returning a body or an error. -/
structure ZoomPackage where
  WS_CONN_KEEPALIVE : Int
  WS_CONF_ROSTER_INDICATION : Int
  WS_CONF_CHAT_INDICATION : Int
  EVERYONE_CHAT_ID : Int
  GetMessageBody : GenericZoomMessage → Except GoError MessageBody

/-- The loop `for _, person := range bodyDataTyped.Add` of the roster case. The
value `SendChatMessage` returns is dropped, as in the source. -/
def welcomeLoop (zoom : ZoomPackage) : List Person → ZoomSession → ZoomSession
  | [], session => session
  | person :: rest, session =>
    if person.ID ≠ session.UserID then
      welcomeLoop zoom rest
        (session.SendChatMessage zoom.EVERYONE_CHAT_ID
          (lit "Welcome to the meeting, " ++ person.Dn2 ++ lit "!")).2
    else welcomeLoop zoom rest session

/-- The function literal that `main` passes to `MakeWebsocketConnection` as the
onmessage callback. The type assertions `body.(*T)` panic when the body is of
another type. The calls to `log` are left out. -/
def onmessage (zoom : ZoomPackage) (intSize : Nat) (session : ZoomSession)
    (message : GenericZoomMessage) : Outcome :=
  if message.Evt = zoom.WS_CONN_KEEPALIVE then
    ⟨Result.returned none, session⟩
  else
    match zoom.GetMessageBody message with
    | Except.error err => ⟨Result.returned (some err), session⟩
    | Except.ok body =>
      if message.Evt = zoom.WS_CONF_ROSTER_INDICATION then
        match body with
        | MessageBody.roster bodyDataTyped =>
          ⟨Result.returned none, welcomeLoop zoom bodyDataTyped.Add session⟩
        | _ => ⟨Result.panicked, session⟩
      else if message.Evt = zoom.WS_CONF_CHAT_INDICATION then
        match body with
        | MessageBody.chat bodyDataTyped =>
          let messageText := bodyDataTyped.Text
          let out := handleChatMessage intSize session bodyDataTyped messageText
          match out.result with
          | Result.returned (some err) => ⟨Result.returned (some err), out.session⟩
          | Result.returned none => ⟨Result.returned none, out.session⟩
          | Result.panicked => out
        | _ => ⟨Result.panicked, session⟩
      else ⟨Result.returned none, session⟩

/-- A decoder for the examples: it answers every envelope with the body
given. -/
def decodeTo (body : MessageBody) : GenericZoomMessage → Except GoError MessageBody :=
  fun _ => Except.ok body

/-- A package `zoom` for the examples: keepalive is kind 0, the roster
indication kind 7937, the chat indication kind 7938, the broadcast target 0. -/
def sampleZoom (decoder : GenericZoomMessage → Except GoError MessageBody) : ZoomPackage :=
  ⟨0, 7937, 7938, 0, decoder⟩

/-- A session for the examples: the bot is user 7, no call has been made, and
every send succeeds. -/
def sampleSession : ZoomSession := ⟨7, [], fun _ => none⟩

/-! ## Facts about the library functions -/

theorem HasPrefix_iff (s pre : GoString) :
    strings.HasPrefix s pre = true ↔ pre <+: s := by
  unfold strings.HasPrefix
  constructor
  · intro h
    simp only [Bool.and_eq_true, decide_eq_true_eq] at h
    refine ⟨s.drop pre.length, ?_⟩
    have h2 := List.take_append_drop pre.length s
    rw [h.2] at h2
    exact h2
  · rintro ⟨t, rfl⟩
    simp

theorem HasPrefix_append (pre rest : GoString) :
    strings.HasPrefix (pre ++ rest) pre = true :=
  (HasPrefix_iff _ _).2 ⟨rest, rfl⟩

theorem TrimPrefix_append (pre rest : GoString) :
    strings.TrimPrefix (pre ++ rest) pre = rest := by
  simp [strings.TrimPrefix, HasPrefix_append]

theorem intercalate_cons_flatMap (sep : GoString) (a : GoString) (rest : List GoString) :
    List.intercalate sep (a :: rest) = a ++ rest.flatMap (fun s => sep ++ s) := by
  induction rest generalizing a with
  | nil => simp [List.intercalate]
  | cons b rest ih =>
    have h := ih b
    simp only [List.intercalate, List.intersperse, List.flatten, List.flatMap_cons,
      List.append_assoc] at h ⊢
    rw [h]

theorem Join_eq_intercalate (elems : List GoString) (sep : GoString) :
    strings.Join elems sep = List.intercalate sep elems := by
  cases elems with
  | nil => simp [strings.Join, List.intercalate]
  | cons a rest =>
    rw [intercalate_cons_flatMap]
    cases rest with
    | nil => simp [strings.Join]
    | cons b rest => rfl

/-! ## handleChatMessage: the claims -/

/-- Without the prefix, handleChatMessage returns nil at once. -/
theorem handleChatMessage_unprefixed (intSize : Nat) (session : ZoomSession)
    (body : ConferenceChatIndication) (messageText : GoString)
    (h : ¬ lit "++" <+: messageText) :
    handleChatMessage intSize session body messageText = ⟨Result.returned none, session⟩ := by
  have hp : strings.HasPrefix messageText MESSAGE_PREFIX = false := by
    rw [Bool.eq_false_iff]
    intro hc
    exact h ((HasPrefix_iff _ _).1 hc)
  simp [handleChatMessage, hp]

/-- C1: a message text that does not start with "++" makes handleChatMessage
return nil and leave the session as it was: no call of any kind is made. -/
theorem C1_no_prefix_no_action (intSize : Nat) (session : ZoomSession)
    (body : ConferenceChatIndication) (messageText : GoString)
    (h : ¬ lit "++" <+: messageText) :
    (handleChatMessage intSize session body messageText).result = Result.returned none ∧
    (handleChatMessage intSize session body messageText).session = session := by
  rw [handleChatMessage_unprefixed intSize session body messageText h]
  exact ⟨rfl, rfl⟩

/-- C1 at the text "hello ++mute", whose "++" is not at the start. -/
theorem C1_no_prefix_no_action_witness :
    (handleChatMessage 64 ⟨7, [], fun _ => none⟩ ⟨3, lit "hello ++mute"⟩
        (lit "hello ++mute")).result = Result.returned none ∧
    (handleChatMessage 64 ⟨7, [], fun _ => none⟩ ⟨3, lit "hello ++mute"⟩
        (lit "hello ++mute")).session = ⟨7, [], fun _ => none⟩ :=
  C1_no_prefix_no_action 64 ⟨7, [], fun _ => none⟩ ⟨3, lit "hello ++mute"⟩ (lit "hello ++mute")
    (by decide)

/-- C2: for a text "++" followed by tokens of which the first is "rename",
handleChatMessage returns nil; with at least one further token it makes one
call, RenameMe with the further tokens joined by single spaces, and with none
it leaves the session as it was. The joined text is the tokens with one space
(byte 32) between each two. -/
theorem C2_rename (intSize : Nat) (session : ZoomSession)
    (body : ConferenceChatIndication) (rest : GoString) (args : List GoString)
    (hw : strings.Fields rest = lit "rename" :: args) :
    (handleChatMessage intSize session body (lit "++" ++ rest)).result = Result.returned none ∧
    (args ≠ [] →
      (handleChatMessage intSize session body (lit "++" ++ rest)).session.calls =
        session.calls ++ [SessionCall.RenameMe (strings.Join args (lit " "))]) ∧
    (args = [] →
      (handleChatMessage intSize session body (lit "++" ++ rest)).session = session) ∧
    strings.Join args (lit " ") = List.intercalate [32] args := by
  refine ⟨?_, ?_, ?_, Join_eq_intercalate args (lit " ")⟩
  · cases args <;>
      simp [handleChatMessage, MESSAGE_PREFIX, HasPrefix_append, TrimPrefix_append, hw,
        sliceFrom1, index0]
  · intro hne
    cases args with
    | nil => exact absurd rfl hne
    | cons a as =>
      simp [handleChatMessage, MESSAGE_PREFIX, HasPrefix_append, TrimPrefix_append, hw,
        sliceFrom1, index0, ZoomSession.RenameMe, ZoomSession.record]
  · intro he
    subst he
    simp [handleChatMessage, MESSAGE_PREFIX, HasPrefix_append, TrimPrefix_append, hw,
      sliceFrom1, index0]

/-- C2 at "++rename Bot Two": one call, RenameMe("Bot Two"). -/
theorem C2_rename_witness :
    (handleChatMessage 64 ⟨7, [], fun _ => none⟩ ⟨3, lit "++rename Bot Two"⟩
        (lit "++" ++ lit "rename Bot Two")).session.calls =
      [SessionCall.RenameMe (lit "Bot Two")] :=
  ((C2_rename 64 ⟨7, [], fun _ => none⟩ ⟨3, lit "++rename Bot Two"⟩ (lit "rename Bot Two")
    [lit "Bot", lit "Two"] (by decide)).2.1 (by decide)).trans (by decide)

theorem verbs_distinct :
    lit "mute" ≠ lit "rename" ∧ lit "screenshare" ≠ lit "rename" ∧
    lit "screenshare" ≠ lit "mute" ∧ lit "chatlevel" ≠ lit "rename" ∧
    lit "chatlevel" ≠ lit "mute" ∧ lit "chatlevel" ≠ lit "screenshare" ∧
    lit "off" ≠ lit "on" := by decide

/-- C3: for a text "++" followed by tokens of which the first is "mute",
handleChatMessage returns nil and calls SetAudioMuted(true) then
SetVideoMuted(true) when no argument follows or the first is "on",
SetAudioMuted(false) then SetVideoMuted(false) when the first is "off", and
leaves the session as it was for any other first argument. -/
theorem C3_mute (intSize : Nat) (session : ZoomSession)
    (body : ConferenceChatIndication) (rest : GoString) (args : List GoString)
    (hw : strings.Fields rest = lit "mute" :: args) :
    (handleChatMessage intSize session body (lit "++" ++ rest)).result = Result.returned none ∧
    (args = [] ∨ args.head? = some (lit "on") →
      (handleChatMessage intSize session body (lit "++" ++ rest)).session.calls =
        session.calls ++ [SessionCall.SetAudioMuted true, SessionCall.SetVideoMuted true]) ∧
    (args.head? = some (lit "off") →
      (handleChatMessage intSize session body (lit "++" ++ rest)).session.calls =
        session.calls ++ [SessionCall.SetAudioMuted false, SessionCall.SetVideoMuted false]) ∧
    (∀ a, args.head? = some a → a ≠ lit "on" → a ≠ lit "off" →
      (handleChatMessage intSize session body (lit "++" ++ rest)).session = session) := by
  obtain ⟨h1, -, -, -, -, -, h7⟩ := verbs_distinct
  have hrun : handleChatMessage intSize session body (lit "++" ++ rest) =
      if args.length = 0 then
        ⟨Result.returned none, (session.SetAudioMuted true).SetVideoMuted true⟩
      else
        match index0 args with
        | none => ⟨Result.panicked, session⟩
        | some a0 =>
          if a0 = lit "on" then
            ⟨Result.returned none, (session.SetAudioMuted true).SetVideoMuted true⟩
          else if a0 = lit "off" then
            ⟨Result.returned none, (session.SetAudioMuted false).SetVideoMuted false⟩
          else ⟨Result.returned none, session⟩ := by
    simp [handleChatMessage, MESSAGE_PREFIX, HasPrefix_append, TrimPrefix_append, hw,
      sliceFrom1, index0, h1]
  rw [hrun]
  cases args with
  | nil =>
    simp [ZoomSession.SetAudioMuted, ZoomSession.SetVideoMuted, ZoomSession.record]
  | cons a as =>
    by_cases hon : a = lit "on"
    · subst hon
      simp [index0, ZoomSession.SetAudioMuted, ZoomSession.SetVideoMuted, ZoomSession.record,
        h7.symm]
    · by_cases hoff : a = lit "off"
      · subst hoff
        simp [index0, ZoomSession.SetAudioMuted, ZoomSession.SetVideoMuted,
          ZoomSession.record, h7]
      · simp [index0, hon, hoff, Ne.symm hon, Ne.symm hoff]

/-- C3 at "++mute banana": the session is left as it was. -/
theorem C3_mute_witness :
    (handleChatMessage 64 ⟨7, [], fun _ => none⟩ ⟨3, lit "++mute banana"⟩
        (lit "++" ++ lit "mute banana")).session = ⟨7, [], fun _ => none⟩ :=
  (C3_mute 64 ⟨7, [], fun _ => none⟩ ⟨3, lit "++mute banana"⟩ (lit "mute banana")
    [lit "banana"] (by decide)).2.2.2 (lit "banana") (by decide) (by decide) (by decide)

/-- C4: for a text "++" followed by tokens of which the first is
"screenshare", handleChatMessage returns nil and makes one call,
SetScreenShareMuted(false), when no argument follows or the first is "on",
one call, SetScreenShareMuted(true), when the first is "off", and leaves the
session as it was for any other first argument. -/
theorem C4_screenshare (intSize : Nat) (session : ZoomSession)
    (body : ConferenceChatIndication) (rest : GoString) (args : List GoString)
    (hw : strings.Fields rest = lit "screenshare" :: args) :
    (handleChatMessage intSize session body (lit "++" ++ rest)).result = Result.returned none ∧
    (args = [] ∨ args.head? = some (lit "on") →
      (handleChatMessage intSize session body (lit "++" ++ rest)).session.calls =
        session.calls ++ [SessionCall.SetScreenShareMuted false]) ∧
    (args.head? = some (lit "off") →
      (handleChatMessage intSize session body (lit "++" ++ rest)).session.calls =
        session.calls ++ [SessionCall.SetScreenShareMuted true]) ∧
    (∀ a, args.head? = some a → a ≠ lit "on" → a ≠ lit "off" →
      (handleChatMessage intSize session body (lit "++" ++ rest)).session = session) := by
  obtain ⟨-, h2, h3, -, -, -, h7⟩ := verbs_distinct
  have hrun : handleChatMessage intSize session body (lit "++" ++ rest) =
      if args.length = 0 then
        ⟨Result.returned none, session.SetScreenShareMuted false⟩
      else
        match index0 args with
        | none => ⟨Result.panicked, session⟩
        | some a0 =>
          if a0 = lit "on" then
            ⟨Result.returned none, session.SetScreenShareMuted false⟩
          else if a0 = lit "off" then
            ⟨Result.returned none, session.SetScreenShareMuted true⟩
          else ⟨Result.returned none, session⟩ := by
    simp [handleChatMessage, MESSAGE_PREFIX, HasPrefix_append, TrimPrefix_append, hw,
      sliceFrom1, index0, h2, h3]
  rw [hrun]
  cases args with
  | nil =>
    simp [ZoomSession.SetScreenShareMuted, ZoomSession.record]
  | cons a as =>
    by_cases hon : a = lit "on"
    · subst hon
      simp [index0, ZoomSession.SetScreenShareMuted, ZoomSession.record, h7.symm]
    · by_cases hoff : a = lit "off"
      · subst hoff
        simp [index0, ZoomSession.SetScreenShareMuted, ZoomSession.record, h7]
      · simp [index0, hon, hoff, Ne.symm hon, Ne.symm hoff]

/-- C4 at "++screenshare off": one call, SetScreenShareMuted(true). -/
theorem C4_screenshare_witness :
    (handleChatMessage 64 ⟨7, [], fun _ => none⟩ ⟨3, lit "++screenshare off"⟩
        (lit "++" ++ lit "screenshare off")).session.calls =
      [] ++ [SessionCall.SetScreenShareMuted true] :=
  (C4_screenshare 64 ⟨7, [], fun _ => none⟩ ⟨3, lit "++screenshare off"⟩
    (lit "screenshare off") [lit "off"] (by decide)).2.2.1 (by decide)

/-- With at least one token after the prefix, handleChatMessage returns nil,
whatever the verb and the arguments. -/
theorem handleChatMessage_tokens_nil (intSize : Nat) (session : ZoomSession)
    (body : ConferenceChatIndication) (rest verb : GoString) (args : List GoString)
    (hw : strings.Fields rest = verb :: args) :
    (handleChatMessage intSize session body (lit "++" ++ rest)).result =
      Result.returned none := by
  cases args with
  | nil =>
    simp only [handleChatMessage, MESSAGE_PREFIX, HasPrefix_append, TrimPrefix_append, hw,
      sliceFrom1, index0]
    simp
    split_ifs <;> rfl
  | cons a as =>
    simp only [handleChatMessage, MESSAGE_PREFIX, HasPrefix_append, TrimPrefix_append, hw,
      sliceFrom1, index0]
    simp
    split_ifs <;> rfl

/-- With no token after the prefix, handleChatMessage returns the error "No
command provided after prefix" and leaves the session as it was. -/
theorem handleChatMessage_no_tokens (intSize : Nat) (session : ZoomSession)
    (body : ConferenceChatIndication) (rest : GoString)
    (hw : strings.Fields rest = []) :
    handleChatMessage intSize session body (lit "++" ++ rest) =
      ⟨Result.returned (some (errors.New (lit "No command provided after prefix"))),
        session⟩ := by
  simp [handleChatMessage, MESSAGE_PREFIX, HasPrefix_append, TrimPrefix_append, hw]

/-- C6: for a chat indication whose text is "++" followed by tokens of which
the first is none of "rename", "mute", "screenshare", "chatlevel",
handleChatMessage returns nil and makes one call: SendChatMessage to the
message's own DestNodeID with the fixed sentence followed by the whole text,
prefix included. -/
theorem C6_unknown_verb_echo (intSize : Nat) (session : ZoomSession)
    (body : ConferenceChatIndication) (rest verb : GoString) (args : List GoString)
    (htext : body.Text = lit "++" ++ rest)
    (hw : strings.Fields rest = verb :: args)
    (h1 : verb ≠ lit "rename") (h2 : verb ≠ lit "mute")
    (h3 : verb ≠ lit "screenshare") (h4 : verb ≠ lit "chatlevel") :
    (handleChatMessage intSize session body body.Text).result = Result.returned none ∧
    (handleChatMessage intSize session body body.Text).session.calls =
      session.calls ++ [SessionCall.SendChatMessage body.DestNodeID
        (lit "I don't understand this message so I am echoing it: " ++ (lit "++" ++ rest))] := by
  rw [htext]
  cases args <;>
    simp [handleChatMessage, MESSAGE_PREFIX, HasPrefix_append, TrimPrefix_append, hw,
      sliceFrom1, index0, h1, h2, h3, h4, ZoomSession.SendChatMessage, ZoomSession.record,
      htext]

/-- C6 at "++MUTE" sent to node 3: the verb is matched case-sensitively, so
the text is echoed to node 3. -/
theorem C6_unknown_verb_echo_witness :
    (handleChatMessage 64 ⟨7, [], fun _ => none⟩ ⟨3, lit "++MUTE"⟩
        (lit "++MUTE")).session.calls =
      [SessionCall.SendChatMessage 3
        (lit "I don't understand this message so I am echoing it: ++MUTE")] :=
  ((C6_unknown_verb_echo 64 ⟨7, [], fun _ => none⟩ ⟨3, lit "++MUTE"⟩ (lit "MUTE")
    (lit "MUTE") [] (by decide) (by decide) (by decide) (by decide) (by decide)
    (by decide)).2).trans (by decide)

/-- C7: handleChatMessage returns a non-nil error exactly when the text is
"++" followed by a remainder with no token; and when it returns an error the
session is as it was. -/
theorem C7_error_iff_empty_command (intSize : Nat) (session : ZoomSession)
    (body : ConferenceChatIndication) (messageText : GoString) :
    ((∃ e, (handleChatMessage intSize session body messageText).result =
          Result.returned (some e)) ↔
      ∃ rest, messageText = lit "++" ++ rest ∧ strings.Fields rest = []) ∧
    ((∃ e, (handleChatMessage intSize session body messageText).result =
          Result.returned (some e)) →
      (handleChatMessage intSize session body messageText).session = session) := by
  by_cases hp : lit "++" <+: messageText
  · obtain ⟨rest, rfl⟩ := hp
    cases hw : strings.Fields rest with
    | nil =>
      rw [handleChatMessage_no_tokens intSize session body rest hw]
      exact ⟨⟨fun _ => ⟨rest, rfl, hw⟩, fun _ => ⟨_, rfl⟩⟩, fun _ => rfl⟩
    | cons verb args =>
      have hnil := handleChatMessage_tokens_nil intSize session body rest verb args hw
      refine ⟨⟨?_, ?_⟩, ?_⟩
      · rintro ⟨e, he⟩
        rw [hnil] at he
        cases he
      · rintro ⟨rest2, h2, hf⟩
        have : rest2 = rest := (List.append_cancel_left h2).symm
        rw [this, hw] at hf
        cases hf
      · rintro ⟨e, he⟩
        rw [hnil] at he
        cases he
  · rw [handleChatMessage_unprefixed intSize session body messageText hp]
    refine ⟨⟨?_, ?_⟩, ?_⟩
    · rintro ⟨e, he⟩
      cases he
    · rintro ⟨rest, h2, -⟩
      exact absurd ⟨rest, h2.symm⟩ hp
    · intro _
      rfl

/-! ## The onmessage callback: the claims -/

/-- The calls the welcome loop adds: one SendChatMessage to the broadcast
target per entry whose ID is not the session's own, in the order of the
entries, whatever the sends return; the rest of the session is untouched. -/
theorem welcomeLoop_calls (zoom : ZoomPackage) (add : List Person) (session : ZoomSession) :
    (welcomeLoop zoom add session).calls =
      session.calls ++ (add.filter (fun p => decide (p.ID ≠ session.UserID))).map
        (fun p => SessionCall.SendChatMessage zoom.EVERYONE_CHAT_ID
          (lit "Welcome to the meeting, " ++ p.Dn2 ++ lit "!")) ∧
    (welcomeLoop zoom add session).UserID = session.UserID ∧
    (welcomeLoop zoom add session).sendResult = session.sendResult := by
  induction add generalizing session with
  | nil => simp [welcomeLoop]
  | cons p rest ih =>
    by_cases h : p.ID = session.UserID
    · simp only [welcomeLoop, h, ne_eq, not_true_eq_false, if_false]
      have := ih session
      simpa [h] using this
    · simp only [welcomeLoop, ne_eq, h, not_false_eq_true, if_true]
      have := ih (session.SendChatMessage zoom.EVERYONE_CHAT_ID
          (lit "Welcome to the meeting, " ++ p.Dn2 ++ lit "!")).2
      simpa [h, ZoomSession.SendChatMessage, ZoomSession.record] using this

/-- The callback on a decoded roster indication. -/
theorem onmessage_roster (zoom : ZoomPackage) (intSize : Nat) (session : ZoomSession)
    (message : GenericZoomMessage) (roster : ConferenceRosterIndication)
    (hk : message.Evt ≠ zoom.WS_CONN_KEEPALIVE)
    (hevt : message.Evt = zoom.WS_CONF_ROSTER_INDICATION)
    (hbody : zoom.GetMessageBody message = Except.ok (MessageBody.roster roster)) :
    onmessage zoom intSize session message =
      ⟨Result.returned none, welcomeLoop zoom roster.Add session⟩ := by
  unfold onmessage
  rw [if_neg hk, hbody]
  simp only [hevt, if_true]

/-- On a decoded chat indication the callback ends as handleChatMessage does,
called with the text of the body. -/
theorem onmessage_chat (zoom : ZoomPackage) (intSize : Nat) (session : ZoomSession)
    (message : GenericZoomMessage) (chat : ConferenceChatIndication)
    (hk : message.Evt ≠ zoom.WS_CONN_KEEPALIVE)
    (hnr : message.Evt ≠ zoom.WS_CONF_ROSTER_INDICATION)
    (hevt : message.Evt = zoom.WS_CONF_CHAT_INDICATION)
    (hbody : zoom.GetMessageBody message = Except.ok (MessageBody.chat chat)) :
    onmessage zoom intSize session message =
      handleChatMessage intSize session chat chat.Text := by
  unfold onmessage
  rw [if_neg hk, hbody]
  simp only [if_neg hnr, if_pos hevt]
  cases hres : (handleChatMessage intSize session chat chat.Text).result with
  | returned err =>
    cases err with
    | none =>
      simp only []
      rw [← hres]
    | some e =>
      simp only []
      rw [← hres]
  | panicked => rfl

/-- C8, as the claim states it, fails: for the chat indication with text "++"
(kind 7938, decoded without error) the callback returns the error "No command
provided after prefix", not nil. -/
theorem C8_empty_command_error_is_returned :
    (GenericZoomMessage.mk 7938 []).Evt ≠
        (sampleZoom (decodeTo (MessageBody.chat ⟨3, lit "++"⟩))).WS_CONN_KEEPALIVE ∧
    (sampleZoom (decodeTo (MessageBody.chat ⟨3, lit "++"⟩))).GetMessageBody
        (GenericZoomMessage.mk 7938 []) = Except.ok (MessageBody.chat ⟨3, lit "++"⟩) ∧
    (onmessage (sampleZoom (decodeTo (MessageBody.chat ⟨3, lit "++"⟩))) 64 sampleSession
        (GenericZoomMessage.mk 7938 [])).result ≠ Result.returned none ∧
    (onmessage (sampleZoom (decodeTo (MessageBody.chat ⟨3, lit "++"⟩))) 64 sampleSession
        (GenericZoomMessage.mk 7938 [])).result =
      Result.returned (some (errors.New (lit "No command provided after prefix"))) := by
  refine ⟨by decide, rfl, by decide, by decide⟩

/-- C8, amended: for a non-keepalive envelope decoded to the body of its kind,
the callback returns the error "No command provided after prefix", with the
session as it was, when the envelope is a chat indication whose text is "++"
followed by no token, and returns nil in every other case. -/
theorem C8_decoded_nil_unless_empty_command (zoom : ZoomPackage) (intSize : Nat)
    (session : ZoomSession) (message : GenericZoomMessage) (body : MessageBody)
    (hk : message.Evt ≠ zoom.WS_CONN_KEEPALIVE)
    (hbody : zoom.GetMessageBody message = Except.ok body)
    (hroster : message.Evt = zoom.WS_CONF_ROSTER_INDICATION →
      ∃ r, body = MessageBody.roster r)
    (hchat : message.Evt = zoom.WS_CONF_CHAT_INDICATION →
      ∃ c, body = MessageBody.chat c) :
    ((∃ c rest, message.Evt ≠ zoom.WS_CONF_ROSTER_INDICATION ∧
          message.Evt = zoom.WS_CONF_CHAT_INDICATION ∧ body = MessageBody.chat c ∧
          c.Text = lit "++" ++ rest ∧ strings.Fields rest = []) →
      onmessage zoom intSize session message =
        ⟨Result.returned (some (errors.New (lit "No command provided after prefix"))),
          session⟩) ∧
    ((¬ ∃ c rest, message.Evt ≠ zoom.WS_CONF_ROSTER_INDICATION ∧
          message.Evt = zoom.WS_CONF_CHAT_INDICATION ∧ body = MessageBody.chat c ∧
          c.Text = lit "++" ++ rest ∧ strings.Fields rest = []) →
      (onmessage zoom intSize session message).result = Result.returned none) := by
  constructor
  · rintro ⟨c, rest, hnr, hevt, rfl, htext, hw⟩
    rw [onmessage_chat zoom intSize session message c hk hnr hevt hbody, htext]
    exact handleChatMessage_no_tokens intSize session c rest hw
  · intro hne
    by_cases hr : message.Evt = zoom.WS_CONF_ROSTER_INDICATION
    · obtain ⟨r, rfl⟩ := hroster hr
      rw [onmessage_roster zoom intSize session message r hk hr hbody]
    · by_cases hc : message.Evt = zoom.WS_CONF_CHAT_INDICATION
      · obtain ⟨c, rfl⟩ := hchat hc
        rw [onmessage_chat zoom intSize session message c hk hr hc hbody]
        by_cases hp : lit "++" <+: c.Text
        · obtain ⟨rest, hrest⟩ := hp
          cases hw : strings.Fields rest with
          | nil => exact absurd ⟨c, rest, hr, hc, rfl, hrest.symm, hw⟩ hne
          | cons verb args =>
            rw [← hrest]
            exact handleChatMessage_tokens_nil intSize session c rest verb args hw
        · rw [handleChatMessage_unprefixed intSize session c c.Text hp]
      · unfold onmessage
        rw [if_neg hk, hbody]
        simp only [if_neg hr, if_neg hc]

/-- C8, amended, at the chat indication "++mute": the callback returns nil. -/
theorem C8_decoded_nil_unless_empty_command_witness :
    (onmessage (sampleZoom (decodeTo (MessageBody.chat ⟨3, lit "++mute"⟩))) 64 sampleSession
        (GenericZoomMessage.mk 7938 [])).result = Result.returned none :=
  (C8_decoded_nil_unless_empty_command
    (sampleZoom (decodeTo (MessageBody.chat ⟨3, lit "++mute"⟩))) 64 sampleSession
    (GenericZoomMessage.mk 7938 []) (MessageBody.chat ⟨3, lit "++mute"⟩)
    (by decide) rfl (fun h => absurd h (by decide)) (fun _ => ⟨_, rfl⟩)).2
    (by
      rintro ⟨c, rest, -, -, hb, ht, hw⟩
      cases hb
      have h2 : rest = lit "mute" := @List.append_cancel_left Nat (lit "++") rest (lit "mute") ht.symm
      rw [h2] at hw
      exact absurd hw (by decide))

/-- C9: on a roster indication the callback makes one call
SendChatMessage(EVERYONE_CHAT_ID, "Welcome to the meeting, " + Dn2 + "!") per
entry of Add whose ID is not the session's own UserID, in the order of Add,
and no other call; the number of calls made is the number of such entries. -/
theorem C9_roster_welcomes (zoom : ZoomPackage) (intSize : Nat) (session : ZoomSession)
    (message : GenericZoomMessage) (roster : ConferenceRosterIndication)
    (hk : message.Evt ≠ zoom.WS_CONN_KEEPALIVE)
    (hevt : message.Evt = zoom.WS_CONF_ROSTER_INDICATION)
    (hbody : zoom.GetMessageBody message = Except.ok (MessageBody.roster roster)) :
    (onmessage zoom intSize session message).session.calls =
      session.calls ++ (roster.Add.filter (fun p => decide (p.ID ≠ session.UserID))).map
        (fun p => SessionCall.SendChatMessage zoom.EVERYONE_CHAT_ID
          (lit "Welcome to the meeting, " ++ p.Dn2 ++ lit "!")) ∧
    (onmessage zoom intSize session message).session.calls.length =
      session.calls.length + roster.Add.countP (fun p => decide (p.ID ≠ session.UserID)) := by
  rw [onmessage_roster zoom intSize session message roster hk hevt hbody]
  have h := (welcomeLoop_calls zoom roster.Add session).1
  refine ⟨h, ?_⟩
  simp only [h, List.length_append, List.length_map, List.countP_eq_length_filter]

/-- C9 at Add = [Ann (1), the bot itself (7), Bob (2)]: two welcomes, to Ann
then to Bob, both to the broadcast target 0. -/
theorem C9_roster_welcomes_witness :
    (onmessage
        (sampleZoom (decodeTo (MessageBody.roster
          ⟨[⟨1, lit "Ann"⟩, ⟨7, lit "Bot"⟩, ⟨2, lit "Bob"⟩]⟩)))
        64 sampleSession (GenericZoomMessage.mk 7937 [])).session.calls =
      [SessionCall.SendChatMessage 0 (lit "Welcome to the meeting, Ann!"),
       SessionCall.SendChatMessage 0 (lit "Welcome to the meeting, Bob!")] :=
  ((C9_roster_welcomes
    (sampleZoom (decodeTo (MessageBody.roster
      ⟨[⟨1, lit "Ann"⟩, ⟨7, lit "Bot"⟩, ⟨2, lit "Bob"⟩]⟩)))
    64 sampleSession (GenericZoomMessage.mk 7937 [])
    ⟨[⟨1, lit "Ann"⟩, ⟨7, lit "Bot"⟩, ⟨2, lit "Bob"⟩]⟩
    (by decide) rfl rfl).1).trans (by decide)

/-- C10: on a roster indication, whatever each SendChatMessage returns (nil or
an error, call by call), the callback returns nil and has attempted the
welcome of every entry of Add whose ID is not the bot's own, in order: the
same calls as when every send succeeds. -/
theorem C10_send_failure_does_not_abort (zoom : ZoomPackage) (intSize : Nat)
    (uid : Int) (calls : List SessionCall) (sendResult : Nat → Option GoError)
    (message : GenericZoomMessage) (roster : ConferenceRosterIndication)
    (hk : message.Evt ≠ zoom.WS_CONN_KEEPALIVE)
    (hevt : message.Evt = zoom.WS_CONF_ROSTER_INDICATION)
    (hbody : zoom.GetMessageBody message = Except.ok (MessageBody.roster roster)) :
    (onmessage zoom intSize ⟨uid, calls, sendResult⟩ message).result = Result.returned none ∧
    (onmessage zoom intSize ⟨uid, calls, sendResult⟩ message).session.calls =
      calls ++ (roster.Add.filter (fun p => decide (p.ID ≠ uid))).map
        (fun p => SessionCall.SendChatMessage zoom.EVERYONE_CHAT_ID
          (lit "Welcome to the meeting, " ++ p.Dn2 ++ lit "!")) ∧
    (onmessage zoom intSize ⟨uid, calls, sendResult⟩ message).session.calls =
      (onmessage zoom intSize ⟨uid, calls, fun _ => none⟩ message).session.calls := by
  rw [onmessage_roster zoom intSize _ message roster hk hevt hbody,
    onmessage_roster zoom intSize _ message roster hk hevt hbody]
  refine ⟨rfl, (welcomeLoop_calls zoom roster.Add _).1, ?_⟩
  rw [(welcomeLoop_calls zoom roster.Add _).1, (welcomeLoop_calls zoom roster.Add _).1]

/-- C10 where every send fails with the error "send failed": Ann and Bob are
both welcomed all the same, and the callback returns nil. -/
theorem C10_send_failure_does_not_abort_witness :
    (onmessage
        (sampleZoom (decodeTo (MessageBody.roster
          ⟨[⟨1, lit "Ann"⟩, ⟨7, lit "Bot"⟩, ⟨2, lit "Bob"⟩]⟩)))
        64 ⟨7, [], fun _ => some (errors.New (lit "send failed"))⟩
        (GenericZoomMessage.mk 7937 [])).result = Result.returned none ∧
    (onmessage
        (sampleZoom (decodeTo (MessageBody.roster
          ⟨[⟨1, lit "Ann"⟩, ⟨7, lit "Bot"⟩, ⟨2, lit "Bob"⟩]⟩)))
        64 ⟨7, [], fun _ => some (errors.New (lit "send failed"))⟩
        (GenericZoomMessage.mk 7937 [])).session.calls =
      [SessionCall.SendChatMessage 0 (lit "Welcome to the meeting, Ann!"),
       SessionCall.SendChatMessage 0 (lit "Welcome to the meeting, Bob!")] :=
  have h := C10_send_failure_does_not_abort
    (sampleZoom (decodeTo (MessageBody.roster
      ⟨[⟨1, lit "Ann"⟩, ⟨7, lit "Bot"⟩, ⟨2, lit "Bob"⟩]⟩)))
    64 7 [] (fun _ => some (errors.New (lit "send failed")))
    (GenericZoomMessage.mk 7937 [])
    ⟨[⟨1, lit "Ann"⟩, ⟨7, lit "Bot"⟩, ⟨2, lit "Bob"⟩]⟩
    (by decide) rfl rfl
  ⟨h.1, h.2.1.trans (by decide)⟩

/-! ## strconv.Atoi against the reading of the specification -/

theorem wrapInt_id32 (x : Int) (h1 : -2147483648 ≤ x) (h2 : x < 2147483648) : wrapInt 32 x = x := by
  unfold wrapInt
  norm_num
  omega

theorem wrapInt_id64 (x : Int) (h1 : -9223372036854775808 ≤ x) (h2 : x < 9223372036854775808) : wrapInt 64 x = x := by
  unfold wrapInt
  norm_num
  omega

theorem decimalValue_ge (ds : List Nat) (n : Nat) : n ≤ decimalValue ds n := by
  induction ds generalizing n with
  | nil => exact Nat.le_refl _
  | cons c rest ih =>
    exact Nat.le_trans (by omega) (ih (n * 10 + digitValue c))

theorem decimalValue_mono (ds : List Nat) (n m : Nat) (h : n ≤ m) :
    decimalValue ds n ≤ decimalValue ds m := by
  induction ds generalizing n m with
  | nil => exact h
  | cons c rest ih =>
    have h2 : n * 10 + digitValue c ≤ m * 10 + digitValue c := by omega
    exact ih (n * 10 + digitValue c) (m * 10 + digitValue c) h2

theorem decimalValue_lt (ds : List Nat) (n : Nat)
    (hd : ∀ c ∈ ds, 48 ≤ c ∧ c ≤ 57) : decimalValue ds n < (n + 1) * 10 ^ ds.length := by
  induction ds generalizing n with
  | nil => simp [decimalValue]
  | cons c rest ih =>
    have hc := hd c (List.mem_cons_self _ _)
    have h3 := ih (n * 10 + digitValue c) (fun x hx => hd x (List.mem_cons_of_mem _ hx))
    have h4 : n * 10 + digitValue c + 1 ≤ (n + 1) * 10 := by
      unfold digitValue
      omega
    show decimalValue rest (n * 10 + digitValue c) < (n + 1) * 10 ^ (rest.length + 1)
    calc decimalValue rest (n * 10 + digitValue c)
        < (n * 10 + digitValue c + 1) * 10 ^ rest.length := h3
      _ ≤ ((n + 1) * 10) * 10 ^ rest.length := Nat.mul_le_mul_right _ h4
      _ = (n + 1) * 10 ^ (rest.length + 1) := by ring

theorem wrapInt_id (w : Nat) (hw : w = 32 ∨ w = 64) (x : Int)
    (h1 : -2 ^ (w - 1) ≤ x) (h2 : x < 2 ^ (w - 1)) : wrapInt w x = x := by
  rcases hw with rfl | rfl
  · exact wrapInt_id32 x (by norm_num at h1; exact h1) (by norm_num at h2; exact h2)
  · exact wrapInt_id64 x (by norm_num at h1; exact h1) (by norm_num at h2; exact h2)

theorem byteSub_digit (c : Nat) (hc : 48 ≤ c ∧ c ≤ 57) : byteSub c 48 = digitValue c := by
  unfold byteSub digitValue
  omega

theorem byteSub_not_digit (c : Nat) (hb : c < 256) (hc : ¬ (48 ≤ c ∧ c ≤ 57)) :
    byteSub c 48 > 9 := by
  unfold byteSub
  omega

theorem atoiFastLoop_digits (w : Nat) (hw : w = 32 ∨ w = 64) (ds : List Nat) (n : Nat)
    (hd : ∀ c ∈ ds, 48 ≤ c ∧ c ≤ 57) (hb : (decimalValue ds n : Int) < 2 ^ (w - 1)) :
    atoiFastLoop w ds (n : Int) = some (decimalValue ds n : Int) := by
  induction ds generalizing n with
  | nil => rfl
  | cons c rest ih =>
    have hc := hd c (List.mem_cons_self _ _)
    have hd2 : digitValue c ≤ 9 := by unfold digitValue; omega
    have hge := decimalValue_ge rest (n * 10 + digitValue c)
    have hb2 : (decimalValue rest (n * 10 + digitValue c) : Int) < 2 ^ (w - 1) := hb
    have hwrap : wrapInt w ((n : Int) * 10 + Int.ofNat (digitValue c)) =
        ((n * 10 + digitValue c : Nat) : Int) := by
      have hcast : ((n : Int) * 10 + Int.ofNat (digitValue c)) =
          ((n * 10 + digitValue c : Nat) : Int) := by push_cast; rfl
      rw [hcast]
      apply wrapInt_id w hw
      · have : (0 : Int) ≤ ((n * 10 + digitValue c : Nat) : Int) := Int.ofNat_nonneg _
        have hp : (0 : Int) < 2 ^ (w - 1) := by positivity
        omega
      · have : ((n * 10 + digitValue c : Nat) : Int) ≤
            (decimalValue rest (n * 10 + digitValue c) : Int) := by exact_mod_cast hge
        omega
    show atoiFastLoop w (c :: rest) (n : Int) = some (decimalValue rest (n * 10 + digitValue c) : Int)
    rw [atoiFastLoop]
    simp only [byteSub_digit c hc]
    rw [if_neg (by omega), hwrap]
    exact ih (n * 10 + digitValue c) (fun x hx => hd x (List.mem_cons_of_mem _ hx)) hb2

theorem atoiFastLoop_bad (w : Nat) (ds : List Nat) (n : Int)
    (hb : ∀ c ∈ ds, c < 256) (hnd : ¬ ∀ c ∈ ds, 48 ≤ c ∧ c ≤ 57) :
    atoiFastLoop w ds n = none := by
  induction ds generalizing n with
  | nil => exact absurd (fun c hc => absurd hc (List.not_mem_nil c)) hnd
  | cons c rest ih =>
    rw [atoiFastLoop]
    by_cases hc : 48 ≤ c ∧ c ≤ 57
    · have hd2 : digitValue c ≤ 9 := by unfold digitValue; omega
      simp only [byteSub_digit c hc]
      rw [if_neg (by omega)]
      apply ih _ (fun x hx => hb x (List.mem_cons_of_mem _ hx))
      intro hall
      apply hnd
      intro x hx
      rcases List.mem_cons.1 hx with rfl | hx
      · exact hc
      · exact hall x hx
    · have := byteSub_not_digit c (hb c (List.mem_cons_self _ _)) hc
      rw [if_pos this]

theorem parseUintLoop_digits (maxVal : Nat) (hmax : maxVal ≤ 2 ^ 64 - 1) (ds : List Nat)
    (n : Nat) (hn : n ≤ maxVal) (hd : ∀ c ∈ ds, 48 ≤ c ∧ c ≤ 57) :
    parseUintLoop maxVal ds n =
      if decimalValue ds n ≤ maxVal then (decimalValue ds n, none)
      else (maxVal, some NumError.ErrRange) := by
  induction ds generalizing n with
  | nil =>
    show (n, none) = if n ≤ maxVal then (n, none) else (maxVal, some NumError.ErrRange)
    rw [if_pos hn]
  | cons c rest ih =>
    have hc := hd c (List.mem_cons_self _ _)
    have hd2 : digitValue c ≤ 9 := by unfold digitValue; omega
    have hge := decimalValue_ge rest (n * 10 + digitValue c)
    have ih2 := fun h => ih (n * 10 + digitValue c) h
      (fun x hx => hd x (List.mem_cons_of_mem _ hx))
    show parseUintLoop maxVal (c :: rest) n =
      if decimalValue rest (n * 10 + digitValue c) ≤ maxVal then
        (decimalValue rest (n * 10 + digitValue c), none)
      else (maxVal, some NumError.ErrRange)
    rw [parseUintLoop]
    simp only [byteSub_digit c hc, if_pos hc]
    by_cases h1 : n ≥ maxUint64 / 10 + 1
    · unfold maxUint64 at h1
      rw [if_pos (by unfold maxUint64; exact h1), if_neg (by omega)]
    · unfold maxUint64 at h1
      rw [if_neg (by unfold maxUint64; exact h1)]
      have hn10 : wrapUint64 (n * 10) = n * 10 := by unfold wrapUint64; omega
      rw [hn10]
      by_cases h2 : n * 10 + digitValue c < 2 ^ 64
      · have hn1 : wrapUint64 (n * 10 + digitValue c) = n * 10 + digitValue c := by
          unfold wrapUint64; omega
        rw [hn1]
        by_cases h3 : n * 10 + digitValue c > maxVal
        · rw [if_pos (Or.inr h3), if_neg (by omega)]
        · rw [if_neg (by omega), ih2 (by omega)]
      · have hn1 : wrapUint64 (n * 10 + digitValue c) < n * 10 := by
          unfold wrapUint64; omega
        rw [if_pos (Or.inl hn1), if_neg (by omega)]

theorem parseUintLoop_bad (maxVal : Nat) (ds : List Nat) (n : Nat)
    (hnd : ¬ ∀ c ∈ ds, 48 ≤ c ∧ c ≤ 57) :
    parseUintLoop maxVal ds n = (maxVal, some NumError.ErrRange) ∨
      (parseUintLoop maxVal ds n).2 = some NumError.ErrSyntax := by
  induction ds generalizing n with
  | nil => exact absurd (fun c hc => absurd hc (List.not_mem_nil c)) hnd
  | cons c rest ih =>
    rw [parseUintLoop]
    by_cases hc : 48 ≤ c ∧ c ≤ 57
    · simp only [if_pos hc]
      split_ifs
      · exact Or.inl rfl
      · exact Or.inl rfl
      · apply ih
        intro hall
        apply hnd
        intro x hx
        rcases List.mem_cons.1 hx with rfl | hx
        · exact hc
        · exact hall x hx
    · rw [if_neg hc]
      exact Or.inr rfl
theorem rangeCheck_spec (C M D : Nat) (hC : 2 ≤ C) (hM : M = 2 * C - 1) (neg : Bool)
    (r : Nat × Option NumError)
    (hr : r = if D ≤ M then (D, none) else (M, some NumError.ErrRange))
    (out : Int × Option NumError)
    (hout : out = if r.2 = some NumError.ErrSyntax then (0, some NumError.ErrSyntax)
      else if !neg && decide (r.1 ≥ C) then (Int.ofNat (C - 1), some NumError.ErrRange)
      else if neg && decide (r.1 > C) then (- Int.ofNat C, some NumError.ErrRange)
      else (if neg then - Int.ofNat r.1 else Int.ofNat r.1, none))
    (v : Int) (hv : v = if neg then - Int.ofNat D else Int.ofNat D) :
    (- (C : Int) ≤ v ∧ v < (C : Int) → out = (v, none)) ∧
    (¬ (- (C : Int) ≤ v ∧ v < (C : Int)) → out.2 ≠ none) := by
  simp only [Int.ofNat_eq_coe] at hout hv
  cases neg
  · simp only [Bool.not_false, Bool.true_and, Bool.false_and, Bool.false_eq_true, if_false]
      at hout hv
    subst hv
    by_cases hD : D ≤ M
    · rw [if_pos hD] at hr
      subst hr
      by_cases hDC : D ≥ C
      · simp [hDC] at hout
        subst hout
        refine ⟨fun h => ?_, fun _ => by simp⟩
        have : (D : Int) < C := h.2
        omega
      · simp [hDC] at hout
        subst hout
        refine ⟨fun _ => rfl, fun h => ?_⟩
        exfalso
        apply h
        constructor
        · have : (0 : Int) ≤ (D : Int) := Int.ofNat_nonneg _
          omega
        · have : D < C := by omega
          exact_mod_cast this
    · rw [if_neg hD] at hr
      subst hr
      have hMC : M ≥ C := by omega
      simp [hMC] at hout
      subst hout
      refine ⟨fun h => ?_, fun _ => by simp⟩
      have : (D : Int) < C := h.2
      omega
  · simp only [Bool.not_true, Bool.false_and, Bool.true_and, Bool.false_eq_true, if_false,
      if_true] at hout hv
    subst hv
    by_cases hD : D ≤ M
    · rw [if_pos hD] at hr
      subst hr
      by_cases hDC : D > C
      · simp [hDC] at hout
        subst hout
        refine ⟨fun h => ?_, fun _ => by simp⟩
        have : - (C : Int) ≤ - (D : Int) := h.1
        omega
      · simp [hDC] at hout
        subst hout
        refine ⟨fun _ => rfl, fun h => ?_⟩
        exfalso
        apply h
        constructor <;> omega
    · rw [if_neg hD] at hr
      subst hr
      have hMC : M > C := by omega
      simp [hMC] at hout
      subst hout
      refine ⟨fun h => ?_, fun _ => by simp⟩
      have : - (C : Int) ≤ - (D : Int) := h.1
      omega

theorem parseIntTail_spec (w : Nat) (hw : w = 32 ∨ w = 64) (neg : Bool) (digits : GoString) :
    (∀ v, readDigits w neg digits = some v → parseIntTail w neg digits = (v, none)) ∧
    (readDigits w neg digits = none → (parseIntTail w neg digits).2 ≠ none) := by
  have hmax : 2 ^ w - 1 ≤ 2 ^ 64 - 1 := by
    rcases hw with rfl | rfl <;> norm_num
  have hC : 2 ≤ 2 ^ (w - 1) := by
    rcases hw with rfl | rfl <;> norm_num
  have hM : 2 ^ w - 1 = 2 * 2 ^ (w - 1) - 1 := by
    rcases hw with rfl | rfl <;> norm_num
  have hcast : ((2 ^ (w - 1) : Nat) : Int) = (2 : Int) ^ (w - 1) := by
    push_cast
    rfl
  by_cases hnil : digits = []
  · subst hnil
    simp [readDigits, parseIntTail, strconv.ParseUint]
  · by_cases hall : ∀ c ∈ digits, 48 ≤ c ∧ c ≤ 57
    · have hr : strconv.ParseUint w digits =
          if decimalValue digits 0 ≤ 2 ^ w - 1 then (decimalValue digits 0, none)
          else (2 ^ w - 1, some NumError.ErrRange) := by
        unfold strconv.ParseUint
        rw [if_neg hnil]
        exact parseUintLoop_digits (2 ^ w - 1) hmax digits 0 (Nat.zero_le _) hall
      have key := rangeCheck_spec (2 ^ (w - 1)) (2 ^ w - 1) (decimalValue digits 0) hC hM neg
        (strconv.ParseUint w digits) hr (parseIntTail w neg digits) rfl _ rfl
      rw [hcast] at key
      unfold readDigits
      rw [if_pos ⟨hnil, hall⟩]
      by_cases hrange :
          - (2 : Int) ^ (w - 1) ≤
              (if neg = true then - Int.ofNat (decimalValue digits 0)
                else Int.ofNat (decimalValue digits 0)) ∧
            (if neg = true then - Int.ofNat (decimalValue digits 0)
                else Int.ofNat (decimalValue digits 0)) < (2 : Int) ^ (w - 1)
      · rw [if_pos hrange]
        refine ⟨fun v hv => ?_, fun h => by cases h⟩
        cases hv
        exact key.1 hrange
      · rw [if_neg hrange]
        exact ⟨fun v hv => (by cases hv), fun _ => key.2 hrange⟩
    · have hrd : readDigits w neg digits = none := by
        unfold readDigits
        rw [if_neg (fun h => hall h.2)]
      rw [hrd]
      refine ⟨fun v hv => (by cases hv), fun _ => ?_⟩
      have hbad := parseUintLoop_bad (2 ^ w - 1) digits 0 hall
      have hpu : strconv.ParseUint w digits = parseUintLoop (2 ^ w - 1) digits 0 := by
        unfold strconv.ParseUint
        rw [if_neg hnil]
      unfold parseIntTail
      rw [hpu]
      rcases hbad with h | h
      · rw [h]
        have h1 : 2 ^ w - 1 ≥ 2 ^ (w - 1) := by omega
        have h2 : 2 ^ w - 1 > 2 ^ (w - 1) := by omega
        cases neg <;> simp [h1, h2]
      · rw [if_pos h]
        simp

theorem ParseInt_spec (w : Nat) (hw : w = 32 ∨ w = 64) (s : GoString) :
    (∀ v, parseBase10 w s = some v → strconv.ParseInt w s = (v, none)) ∧
    (parseBase10 w s = none → (strconv.ParseInt w s).2 ≠ none) := by
  cases s with
  | nil => exact ⟨fun v hv => (by cases hv), fun _ => by simp [strconv.ParseInt]⟩
  | cons s0 t =>
    unfold parseBase10 strconv.ParseInt
    simp only []
    split_ifs
    · exact parseIntTail_spec w hw false t
    · exact parseIntTail_spec w hw true t
    · exact parseIntTail_spec w hw false (s0 :: t)

theorem readDigits_range (w : Nat) (neg : Bool) (digits : GoString) (v : Int)
    (h : readDigits w neg digits = some v) : - 2 ^ (w - 1) ≤ v ∧ v < 2 ^ (w - 1) := by
  unfold readDigits at h
  by_cases h1 : digits ≠ [] ∧ ∀ c ∈ digits, 48 ≤ c ∧ c ≤ 57
  · rw [if_pos h1] at h
    by_cases h2 : - 2 ^ (w - 1) ≤
          (if neg = true then - Int.ofNat (decimalValue digits 0)
            else Int.ofNat (decimalValue digits 0)) ∧
        (if neg = true then - Int.ofNat (decimalValue digits 0)
            else Int.ofNat (decimalValue digits 0)) < 2 ^ (w - 1)
    · rw [if_pos h2] at h
      cases h
      exact h2
    · rw [if_neg h2] at h
      cases h
  · rw [if_neg h1] at h
    cases h

theorem parseBase10_range (w : Nat) (s : GoString) (v : Int)
    (h : parseBase10 w s = some v) : - 2 ^ (w - 1) ≤ v ∧ v < 2 ^ (w - 1) := by
  cases s with
  | nil => cases h
  | cons s0 t =>
    unfold parseBase10 at h
    simp only [] at h
    split_ifs at h
    · exact readDigits_range w false t v h
    · exact readDigits_range w true t v h
    · exact readDigits_range w false (s0 :: t) v h

theorem fastDigits_spec (w : Nat) (neg : Bool) (digits : GoString)
    (hb : ∀ b ∈ digits, b < 256) (hne : digits ≠ [])
    (hlen : (w = 32 ∧ digits.length < 10) ∨ (w = 64 ∧ digits.length < 19)) :
    (∀ v, readDigits w neg digits = some v →
      ∃ n : Int, atoiFastLoop w digits 0 = some n ∧
        (if neg = true then wrapInt w (- n) else n) = v) ∧
    (readDigits w neg digits = none → atoiFastLoop w digits 0 = none) := by
  have hw : w = 32 ∨ w = 64 := hlen.elim (fun h => Or.inl h.1) (fun h => Or.inr h.1)
  by_cases hall : ∀ c ∈ digits, 48 ≤ c ∧ c ≤ 57
  · have hlt := decimalValue_lt digits 0 hall
    have hpow : 10 ^ digits.length < 2 ^ (w - 1) := by
      rcases hlen with ⟨rfl, h⟩ | ⟨rfl, h⟩
      · calc 10 ^ digits.length ≤ 10 ^ 9 := Nat.pow_le_pow_right (by norm_num) (by omega)
          _ < 2 ^ (32 - 1) := by norm_num
      · calc 10 ^ digits.length ≤ 10 ^ 18 := Nat.pow_le_pow_right (by norm_num) (by omega)
          _ < 2 ^ (64 - 1) := by norm_num
    have hD : decimalValue digits 0 < 2 ^ (w - 1) := by omega
    have hDi : (decimalValue digits 0 : Int) < 2 ^ (w - 1) := by exact_mod_cast hD
    have hloop := atoiFastLoop_digits w hw digits 0 hall hDi
    rw [Nat.cast_zero] at hloop
    have hnn : (0 : Int) ≤ (decimalValue digits 0 : Int) := Int.ofNat_nonneg _
    refine ⟨fun v hv => ⟨_, hloop, ?_⟩, fun h => ?_⟩
    · unfold readDigits at hv
      rw [if_pos ⟨hne, hall⟩] at hv
      simp only [Int.ofNat_eq_coe] at hv
      cases neg
      · simp only [Bool.false_eq_true, if_false] at hv ⊢
        split_ifs at hv
        cases hv
        rfl
      · simp only [if_true] at hv ⊢
        split_ifs at hv
        cases hv
        exact wrapInt_id w hw _ (by omega) (by omega)
    · exfalso
      unfold readDigits at h
      rw [if_pos ⟨hne, hall⟩] at h
      simp only [Int.ofNat_eq_coe] at h
      cases neg
      · simp only [Bool.false_eq_true, if_false] at h
        rw [if_pos ⟨by omega, hDi⟩] at h
        cases h
      · simp only [if_true] at h
        rw [if_pos ⟨by omega, by omega⟩] at h
        cases h
  · refine ⟨fun v hv => ?_, fun _ => atoiFastLoop_bad w digits 0 hb hall⟩
    unfold readDigits at hv
    rw [if_neg (fun h => hall h.2)] at hv
    cases hv

theorem Atoi_fast_path (w : Nat) (s0 : Nat) (t : List Nat)
    (hfast : (w = 32 ∧ 0 < (s0 :: t).length ∧ (s0 :: t).length < 10) ∨
      (w = 64 ∧ 0 < (s0 :: t).length ∧ (s0 :: t).length < 19)) :
    strconv.Atoi w (s0 :: t) =
      if (s0 = 45 ∨ s0 = 43) ∧ (if s0 = 45 ∨ s0 = 43 then t else s0 :: t).length < 1 then
        (0, some NumError.ErrSyntax)
      else
        match atoiFastLoop w (if s0 = 45 ∨ s0 = 43 then t else s0 :: t) 0 with
        | none => (0, some NumError.ErrSyntax)
        | some n => (if s0 = 45 then wrapInt w (- n) else n, none) := by
  unfold strconv.Atoi
  simp only []
  rw [if_pos hfast]

theorem Atoi_slow_path (w : Nat) (s : GoString)
    (hslow : ¬ ((w = 32 ∧ 0 < s.length ∧ s.length < 10) ∨
      (w = 64 ∧ 0 < s.length ∧ s.length < 19))) :
    strconv.Atoi w s = (wrapInt w (strconv.ParseInt w s).1, (strconv.ParseInt w s).2) := by
  unfold strconv.Atoi
  simp only []
  rw [if_neg hslow]

theorem fastTail_spec (w : Nat) (neg : Bool) (digits : GoString)
    (hb : ∀ b ∈ digits, b < 256) (hne : digits ≠ [])
    (hlen : (w = 32 ∧ digits.length < 10) ∨ (w = 64 ∧ digits.length < 19)) :
    (∀ v, readDigits w neg digits = some v →
      (match atoiFastLoop w digits 0 with
        | none => ((0 : Int), some NumError.ErrSyntax)
        | some n => (if neg = true then wrapInt w (- n) else n, none)) = (v, none)) ∧
    (readDigits w neg digits = none →
      (match atoiFastLoop w digits 0 with
        | none => ((0 : Int), some NumError.ErrSyntax)
        | some n => (if neg = true then wrapInt w (- n) else n, none)).2 ≠ none) := by
  have h := fastDigits_spec w neg digits hb hne hlen
  constructor
  · intro v hv
    obtain ⟨n, hn, hv2⟩ := h.1 v hv
    rw [hn]
    simp only []
    rw [hv2]
  · intro hn
    rw [h.2 hn]
    simp

theorem readDigits_nil (w : Nat) (neg : Bool) : readDigits w neg [] = none := by
  unfold readDigits
  rw [if_neg (fun h => h.1 rfl)]

theorem Atoi_spec (w : Nat) (hw : w = 32 ∨ w = 64) (s : GoString)
    (hb : ∀ b ∈ s, b < 256) :
    (∀ v, parseBase10 w s = some v → strconv.Atoi w s = (v, none)) ∧
    (parseBase10 w s = none → (strconv.Atoi w s).2 ≠ none) := by
  by_cases hfast : (w = 32 ∧ 0 < s.length ∧ s.length < 10) ∨
      (w = 64 ∧ 0 < s.length ∧ s.length < 19)
  · cases s with
    | nil => simp at hfast
    | cons s0 t =>
      have hbt : ∀ b ∈ t, b < 256 := fun b h => hb b (List.mem_cons_of_mem _ h)
      have hlen : (s0 :: t).length = t.length + 1 := rfl
      have hlent : (w = 32 ∧ t.length < 10) ∨ (w = 64 ∧ t.length < 19) := by
        rw [hlen] at hfast
        omega
      have hlens : (w = 32 ∧ (s0 :: t).length < 10) ∨ (w = 64 ∧ (s0 :: t).length < 19) := by
        omega
      rw [Atoi_fast_path w s0 t hfast]
      unfold parseBase10
      simp only []
      by_cases h43 : s0 = 43
      · subst h43
        simp only [if_true, or_true, true_and, show ¬ ((43 : Nat) = 45) by decide, if_false]
        cases t with
        | nil =>
          rw [readDigits_nil]
          exact ⟨fun v hv => (by cases hv), fun _ => by simp⟩
        | cons a as =>
          have key := fastTail_spec w false (a :: as) hbt (List.cons_ne_nil _ _) hlent
          simp only [Bool.false_eq_true, if_false] at key
          rw [if_neg (by simp)]
          exact key
      · by_cases h45 : s0 = 45
        · subst h45
          simp only [if_true, true_or, true_and, show ¬ ((45 : Nat) = 43) by decide, if_false]
          cases t with
          | nil =>
            rw [readDigits_nil]
            exact ⟨fun v hv => (by cases hv), fun _ => by simp⟩
          | cons a as =>
            have key := fastTail_spec w true (a :: as) hbt (List.cons_ne_nil _ _) hlent
            simp only [if_true] at key
            rw [if_neg (by simp)]
            exact key
        · have key := fastTail_spec w false (s0 :: t) hb (List.cons_ne_nil _ _) hlens
          simp only [Bool.false_eq_true, if_false] at key
          simp only [h43, h45, if_false, or_self, false_and]
          exact key
  · rw [Atoi_slow_path w s hfast]
    have h := ParseInt_spec w hw s
    refine ⟨fun v hv => ?_, fun hn => h.2 hn⟩
    rw [h.1 v hv]
    have hr := parseBase10_range w s v hv
    simp only [wrapInt_id w hw v hr.1 hr.2]

/-! ## The tokens of strings.Fields are made of bytes of the text -/

theorem fieldsASCII_mem (s : List Nat) (cur : Option GoString) :
    ∀ tok ∈ fieldsASCII cur s, ∀ b ∈ tok, b ∈ cur.getD [] ∨ b ∈ s := by
  induction s generalizing cur with
  | nil =>
    cases cur with
    | none => simp [fieldsASCII]
    | some fld =>
      intro tok ht b hb
      simp only [fieldsASCII, List.mem_singleton] at ht
      subst ht
      exact Or.inl hb
  | cons c rest ih =>
    intro tok ht b hb
    cases cur with
    | none =>
      simp only [fieldsASCII] at ht
      split_ifs at ht
      · rcases ih none tok ht b hb with h | h
        · exact Or.inl h
        · exact Or.inr (List.mem_cons_of_mem _ h)
      · rcases ih (some [c]) tok ht b hb with h | h
        · simp only [Option.getD_some, List.mem_singleton] at h
          subst h
          exact Or.inr (List.mem_cons_self _ _)
        · exact Or.inr (List.mem_cons_of_mem _ h)
    | some fld =>
      simp only [fieldsASCII] at ht
      split_ifs at ht
      · rcases List.mem_cons.1 ht with h | h
        · subst h
          exact Or.inl hb
        · rcases ih none tok h b hb with h2 | h2
          · simp at h2
          · exact Or.inr (List.mem_cons_of_mem _ h2)
      · rcases ih (some (fld ++ [c])) tok ht b hb with h | h
        · simp only [Option.getD_some, List.mem_append, List.mem_singleton] at h
          rcases h with h | h
          · exact Or.inl h
          · subst h
            exact Or.inr (List.mem_cons_self _ _)
        · exact Or.inr (List.mem_cons_of_mem _ h)

theorem fieldsFuncLoop_mem (f : Nat → Bool) (s : List Nat) (skip : Nat) (cur : Option GoString) :
    ∀ tok ∈ fieldsFuncLoop f s skip cur, ∀ b ∈ tok, b ∈ cur.getD [] ∨ b ∈ s := by
  induction s generalizing skip cur with
  | nil =>
    cases cur with
    | none => simp [fieldsFuncLoop]
    | some fld =>
      intro tok ht b hb
      simp only [fieldsFuncLoop, List.mem_singleton] at ht
      subst ht
      exact Or.inl hb
  | cons c rest ih =>
    intro tok ht b hb
    have step : ∀ (k : Nat) (cur2 : Option GoString),
        (∀ x ∈ cur2.getD [], x ∈ cur.getD [] ∨ x = c) →
        tok ∈ fieldsFuncLoop f rest k cur2 → b ∈ cur.getD [] ∨ b ∈ c :: rest := by
      intro k cur2 hcur2 htok
      rcases ih k cur2 tok htok b hb with h | h
      · rcases hcur2 b h with h2 | h2
        · exact Or.inl h2
        · subst h2
          exact Or.inr (List.mem_cons_self _ _)
      · exact Or.inr (List.mem_cons_of_mem _ h)
    cases skip with
    | succ k =>
      simp only [fieldsFuncLoop] at ht
      refine step k _ ?_ ht
      cases cur with
      | none => simp
      | some fld =>
        intro x hx
        simp only [Option.map_some', Option.getD_some, List.mem_append,
          List.mem_singleton] at hx
        exact hx
    | zero =>
      simp only [fieldsFuncLoop] at ht
      split_ifs at ht
      · cases cur with
        | none =>
          simp only [] at ht
          exact step _ none (by simp) ht
        | some fld =>
          simp only [] at ht
          rcases List.mem_cons.1 ht with h | h
          · subst h
            exact Or.inl hb
          · exact step _ none (by simp) h
      · refine step _ _ ?_ ht
        intro x hx
        simp only [Option.getD_some, List.mem_append, List.mem_singleton] at hx
        exact hx

theorem Fields_mem (s : GoString) :
    ∀ tok ∈ strings.Fields s, ∀ b ∈ tok, b ∈ s := by
  intro tok ht b hb
  unfold strings.Fields at ht
  split_ifs at ht
  · rcases fieldsASCII_mem s none tok ht b hb with h | h
    · simp at h
    · exact h
  · rcases fieldsFuncLoop_mem IsSpace s 0 none tok ht b hb with h | h
    · simp at h
    · exact h

/-- C5: for a text "++" followed by tokens of which the first is "chatlevel",
handleChatMessage returns nil; when a first argument follows and reads as a
base-10 integer n (optional sign, decimal digits, within the range of int),
it makes one call, SetChatLevel(n); when the first argument does not read so,
or when no argument follows, it leaves the session as it was. -/
theorem C5_chatlevel (intSize : Nat) (hsz : intSize = 32 ∨ intSize = 64)
    (session : ZoomSession) (body : ConferenceChatIndication) (rest : GoString)
    (args : List GoString) (hbytes : ∀ b ∈ rest, b < 256)
    (hw : strings.Fields rest = lit "chatlevel" :: args) :
    (handleChatMessage intSize session body (lit "++" ++ rest)).result = Result.returned none ∧
    (∀ a n, args.head? = some a → parseBase10 intSize a = some n →
      (handleChatMessage intSize session body (lit "++" ++ rest)).session.calls =
        session.calls ++ [SessionCall.SetChatLevel n]) ∧
    (∀ a, args.head? = some a → parseBase10 intSize a = none →
      (handleChatMessage intSize session body (lit "++" ++ rest)).session = session) ∧
    (args = [] →
      (handleChatMessage intSize session body (lit "++" ++ rest)).session = session) := by
  obtain ⟨-, -, -, h4, h5, h6, -⟩ := verbs_distinct
  refine ⟨handleChatMessage_tokens_nil intSize session body rest _ args hw, ?_⟩
  cases args with
  | nil =>
    simp [handleChatMessage, MESSAGE_PREFIX, HasPrefix_append, TrimPrefix_append, hw,
      sliceFrom1, index0, h4, h5, h6]
  | cons a0 as =>
    have hrun : handleChatMessage intSize session body (lit "++" ++ rest) =
        if (strconv.Atoi intSize a0).2 = none then
          ⟨Result.returned none, session.SetChatLevel (strconv.Atoi intSize a0).1⟩
        else ⟨Result.returned none, session⟩ := by
      simp [handleChatMessage, MESSAGE_PREFIX, HasPrefix_append, TrimPrefix_append, hw,
        sliceFrom1, index0, h4, h5, h6]
    have hmem : a0 ∈ strings.Fields rest := by
      rw [hw]
      exact List.mem_cons_of_mem _ (List.mem_cons_self _ _)
    have hb0 : ∀ b ∈ a0, b < 256 := fun b hb => hbytes b (Fields_mem rest a0 hmem b hb)
    have hspec := Atoi_spec intSize hsz a0 hb0
    rw [hrun]
    refine ⟨?_, ?_, fun h => by cases h⟩
    · intro a n ha hn
      cases ha
      rw [hspec.1 n hn]
      simp [ZoomSession.SetChatLevel, ZoomSession.record]
    · intro a ha hn
      cases ha
      rw [if_neg (hspec.2 hn)]

/-- C5 at "++chatlevel 2": one call, SetChatLevel(2). -/
theorem C5_chatlevel_witness :
    (handleChatMessage 64 sampleSession ⟨3, lit "++chatlevel 2"⟩
        (lit "++" ++ lit "chatlevel 2")).session.calls =
      sampleSession.calls ++ [SessionCall.SetChatLevel 2] :=
  (C5_chatlevel 64 (Or.inr rfl) sampleSession ⟨3, lit "++chatlevel 2"⟩ (lit "chatlevel 2")
    [lit "2"] (by decide) (by decide)).2.1 (lit "2") 2 rfl (by decide)

/-- The text "++chatlevel abc": "abc" does not read as an integer, and no
call is made. -/
theorem chatlevel_abc_no_call :
    (handleChatMessage 64 sampleSession ⟨3, lit "++chatlevel abc"⟩
        (lit "++chatlevel abc")).session.calls = [] := by decide

/-- The texts "++" and "++   " hold no command: handleChatMessage returns the
error "No command provided after prefix" and makes no call. -/
theorem empty_command_examples :
    (handleChatMessage 64 sampleSession ⟨3, lit "++"⟩ (lit "++")).result =
      Result.returned (some (errors.New (lit "No command provided after prefix"))) ∧
    (handleChatMessage 64 sampleSession ⟨3, lit "++"⟩ (lit "++")).session.calls = [] ∧
    (handleChatMessage 64 sampleSession ⟨3, lit "++   "⟩ (lit "++   ")).result =
      Result.returned (some (errors.New (lit "No command provided after prefix"))) ∧
    (handleChatMessage 64 sampleSession ⟨3, lit "++   "⟩ (lit "++   ")).session.calls = [] := by
  decide

/-! ## The callback on keepalives, decode failures and other kinds; totality -/

/-- C11: on an envelope whose Evt is WS_CONN_KEEPALIVE the callback returns nil
and leaves the session as it was, whatever the payload and whatever the
decoder GetMessageBody would answer: the body is not decoded. -/
theorem C11_keepalive_ignored (zoom : ZoomPackage) (intSize : Nat) (session : ZoomSession)
    (message : GenericZoomMessage)
    (hevt : message.Evt = zoom.WS_CONN_KEEPALIVE) :
    onmessage zoom intSize session message = ⟨Result.returned none, session⟩ ∧
    ∀ decoder : GenericZoomMessage → Except GoError MessageBody,
      onmessage ⟨zoom.WS_CONN_KEEPALIVE, zoom.WS_CONF_ROSTER_INDICATION,
          zoom.WS_CONF_CHAT_INDICATION, zoom.EVERYONE_CHAT_ID, decoder⟩
        intSize session message = ⟨Result.returned none, session⟩ := by
  constructor
  · unfold onmessage
    rw [if_pos hevt]
  · intro decoder
    unfold onmessage
    rw [if_pos hevt]

/-- C11 at a keepalive envelope (kind 0) with a payload, under a decoder that
fails on every envelope: nil is returned and no call is made. -/
theorem C11_keepalive_ignored_witness :
    onmessage (sampleZoom (fun _ => Except.error (errors.New (lit "cannot decode"))))
        64 sampleSession (GenericZoomMessage.mk 0 (lit "payload")) =
      ⟨Result.returned none, sampleSession⟩ :=
  (C11_keepalive_ignored (sampleZoom (fun _ => Except.error (errors.New (lit "cannot decode"))))
    64 sampleSession (GenericZoomMessage.mk 0 (lit "payload")) rfl).1

/-- C12: on a non-keepalive envelope for which GetMessageBody fails with the
error e, the callback returns that same e and leaves the session as it was. -/
theorem C12_decode_error_returned (zoom : ZoomPackage) (intSize : Nat)
    (session : ZoomSession) (message : GenericZoomMessage) (e : GoError)
    (hk : message.Evt ≠ zoom.WS_CONN_KEEPALIVE)
    (hbody : zoom.GetMessageBody message = Except.error e) :
    onmessage zoom intSize session message = ⟨Result.returned (some e), session⟩ := by
  unfold onmessage
  rw [if_neg hk, hbody]

/-- C12 at a chat envelope (kind 7938) whose decoding fails with "cannot
decode": that error is what the callback returns. -/
theorem C12_decode_error_returned_witness :
    onmessage (sampleZoom (fun _ => Except.error (errors.New (lit "cannot decode"))))
        64 sampleSession (GenericZoomMessage.mk 7938 (lit "payload")) =
      ⟨Result.returned (some (errors.New (lit "cannot decode"))), sampleSession⟩ :=
  C12_decode_error_returned
    (sampleZoom (fun _ => Except.error (errors.New (lit "cannot decode"))))
    64 sampleSession (GenericZoomMessage.mk 7938 (lit "payload"))
    (errors.New (lit "cannot decode")) (by decide) rfl

/-- C15: on an envelope whose Evt is none of WS_CONN_KEEPALIVE,
WS_CONF_ROSTER_INDICATION, WS_CONF_CHAT_INDICATION and whose body decodes, the
callback returns nil and leaves the session as it was. -/
theorem C15_other_kinds_ignored (zoom : ZoomPackage) (intSize : Nat)
    (session : ZoomSession) (message : GenericZoomMessage) (body : MessageBody)
    (hk : message.Evt ≠ zoom.WS_CONN_KEEPALIVE)
    (hr : message.Evt ≠ zoom.WS_CONF_ROSTER_INDICATION)
    (hc : message.Evt ≠ zoom.WS_CONF_CHAT_INDICATION)
    (hbody : zoom.GetMessageBody message = Except.ok body) :
    onmessage zoom intSize session message = ⟨Result.returned none, session⟩ := by
  unfold onmessage
  rw [if_neg hk, hbody]
  simp only [if_neg hr, if_neg hc]

/-- C15 at an envelope of kind 4098, decoded to a body of another type. -/
theorem C15_other_kinds_ignored_witness :
    onmessage (sampleZoom (decodeTo MessageBody.other)) 64 sampleSession
        (GenericZoomMessage.mk 4098 (lit "payload")) =
      ⟨Result.returned none, sampleSession⟩ :=
  C15_other_kinds_ignored (sampleZoom (decodeTo MessageBody.other)) 64 sampleSession
    (GenericZoomMessage.mk 4098 (lit "payload")) MessageBody.other
    (by decide) (by decide) (by decide) rfl

/-- C14: handleChatMessage returns on every input: it never panics. The slice
words[1:] and the element words[0] exist whenever the test wordsCount < 1
fails, and args[0] exists whenever argsCount is not 0. -/
theorem C14_handleChatMessage_total (intSize : Nat) (session : ZoomSession)
    (body : ConferenceChatIndication) (messageText : GoString) :
    (handleChatMessage intSize session body messageText).result ≠ Result.panicked ∧
    (∃ err, (handleChatMessage intSize session body messageText).result =
      Result.returned err) ∧
    (∀ words : List GoString, ¬ words.length < 1 →
      sliceFrom1 words ≠ none ∧ index0 words ≠ none) ∧
    (∀ args : List GoString, ¬ args.length = 0 → index0 args ≠ none) := by
  have hret : ∃ err, (handleChatMessage intSize session body messageText).result =
      Result.returned err := by
    by_cases hp : lit "++" <+: messageText
    · obtain ⟨rest, rfl⟩ := hp
      cases hw : strings.Fields rest with
      | nil =>
        rw [handleChatMessage_no_tokens intSize session body rest hw]
        exact ⟨_, rfl⟩
      | cons verb args =>
        exact ⟨_, handleChatMessage_tokens_nil intSize session body rest verb args hw⟩
    · rw [handleChatMessage_unprefixed intSize session body messageText hp]
      exact ⟨_, rfl⟩
  refine ⟨?_, hret, ?_, ?_⟩
  · obtain ⟨err, he⟩ := hret
    rw [he]
    intro h
    cases h
  · intro words hlen
    cases words with
    | nil => simp at hlen
    | cons w ws => simp [sliceFrom1, index0]
  · intro args hlen
    cases args with
    | nil => simp at hlen
    | cons a as => simp [index0]

/-! ## How many calls, and what they depend on -/

theorem handleChatMessage_session_cases (intSize : Nat) (session : ZoomSession)
    (body : ConferenceChatIndication) (rest verb : GoString) (args : List GoString)
    (hw : strings.Fields rest = verb :: args) :
    (handleChatMessage intSize session body (lit "++" ++ rest)).session = session ∨
    (∃ c, (handleChatMessage intSize session body (lit "++" ++ rest)).session =
      session.record c) ∨
    (verb = lit "mute" ∧ ∃ b, (handleChatMessage intSize session body (lit "++" ++ rest)).session =
      (session.SetAudioMuted b).SetVideoMuted b) := by
  obtain ⟨h1, h2, h3, h4, h5, h6, h7⟩ := verbs_distinct
  by_cases hv1 : verb = lit "rename"
  · subst hv1
    cases args with
    | nil =>
      left
      simp [handleChatMessage, MESSAGE_PREFIX, HasPrefix_append, TrimPrefix_append, hw,
        sliceFrom1, index0]
    | cons a as =>
      right; left
      exact ⟨SessionCall.RenameMe (strings.Join (a :: as) (lit " ")), by
        simp [handleChatMessage, MESSAGE_PREFIX, HasPrefix_append, TrimPrefix_append, hw,
          sliceFrom1, index0, ZoomSession.RenameMe]⟩
  · by_cases hv2 : verb = lit "mute"
    · subst hv2
      cases args with
      | nil =>
        right; right
        exact ⟨rfl, true, by
          simp [handleChatMessage, MESSAGE_PREFIX, HasPrefix_append, TrimPrefix_append, hw,
            sliceFrom1, index0, h1]⟩
      | cons a as =>
        by_cases hon : a = lit "on"
        · right; right
          exact ⟨rfl, true, by
            simp [handleChatMessage, MESSAGE_PREFIX, HasPrefix_append, TrimPrefix_append, hw,
              sliceFrom1, index0, h1, hon]⟩
        · by_cases hoff : a = lit "off"
          · right; right
            exact ⟨rfl, false, by
              simp [handleChatMessage, MESSAGE_PREFIX, HasPrefix_append, TrimPrefix_append, hw,
                sliceFrom1, index0, h1, hon, hoff, h7]⟩
          · left
            simp [handleChatMessage, MESSAGE_PREFIX, HasPrefix_append, TrimPrefix_append, hw,
              sliceFrom1, index0, h1, hon, hoff]
    · by_cases hv3 : verb = lit "screenshare"
      · subst hv3
        cases args with
        | nil =>
          right; left
          exact ⟨SessionCall.SetScreenShareMuted false, by
            simp [handleChatMessage, MESSAGE_PREFIX, HasPrefix_append, TrimPrefix_append, hw,
              sliceFrom1, index0, h2, h3, ZoomSession.SetScreenShareMuted]⟩
        | cons a as =>
          by_cases hon : a = lit "on"
          · right; left
            exact ⟨SessionCall.SetScreenShareMuted false, by
              simp [handleChatMessage, MESSAGE_PREFIX, HasPrefix_append, TrimPrefix_append, hw,
                sliceFrom1, index0, h2, h3, hon, ZoomSession.SetScreenShareMuted]⟩
          · by_cases hoff : a = lit "off"
            · right; left
              exact ⟨SessionCall.SetScreenShareMuted true, by
                simp [handleChatMessage, MESSAGE_PREFIX, HasPrefix_append, TrimPrefix_append,
                  hw, sliceFrom1, index0, h2, h3, hon, hoff, h7,
                  ZoomSession.SetScreenShareMuted]⟩
            · left
              simp [handleChatMessage, MESSAGE_PREFIX, HasPrefix_append, TrimPrefix_append, hw,
                sliceFrom1, index0, h2, h3, hon, hoff]
      · by_cases hv4 : verb = lit "chatlevel"
        · subst hv4
          cases args with
          | nil =>
            left
            simp [handleChatMessage, MESSAGE_PREFIX, HasPrefix_append, TrimPrefix_append, hw,
              sliceFrom1, index0, h4, h5, h6]
          | cons a as =>
            by_cases hat : (strconv.Atoi intSize a).2 = none
            · right; left
              exact ⟨SessionCall.SetChatLevel (strconv.Atoi intSize a).1, by
                simp [handleChatMessage, MESSAGE_PREFIX, HasPrefix_append, TrimPrefix_append,
                  hw, sliceFrom1, index0, h4, h5, h6, hat, ZoomSession.SetChatLevel]⟩
            · left
              simp [handleChatMessage, MESSAGE_PREFIX, HasPrefix_append, TrimPrefix_append, hw,
                sliceFrom1, index0, h4, h5, h6, hat]
        · right; left
          exact ⟨SessionCall.SendChatMessage body.DestNodeID
            (lit "I don't understand this message so I am echoing it: " ++ body.Text), by
            cases args <;>
            simp [handleChatMessage, MESSAGE_PREFIX, HasPrefix_append, TrimPrefix_append, hw,
              sliceFrom1, index0, hv1, hv2, hv3, hv4, ZoomSession.SendChatMessage]⟩

/-- C13: handleChatMessage adds at most two calls to the session's log, and it
adds two only for the verb "mute": then the two are SetAudioMuted and
SetVideoMuted with the same value. -/
theorem C13_at_most_two_calls (intSize : Nat) (session : ZoomSession)
    (body : ConferenceChatIndication) (messageText : GoString) :
    session.calls <+: (handleChatMessage intSize session body messageText).session.calls ∧
    (handleChatMessage intSize session body messageText).session.calls.length ≤
      session.calls.length + 2 ∧
    ((handleChatMessage intSize session body messageText).session.calls.length =
        session.calls.length + 2 →
      ∃ rest args b, messageText = lit "++" ++ rest ∧
        strings.Fields rest = lit "mute" :: args ∧
        (handleChatMessage intSize session body messageText).session.calls =
          session.calls ++ [SessionCall.SetAudioMuted b, SessionCall.SetVideoMuted b]) := by
  have same : ∀ o : Outcome, o.session = session →
      session.calls <+: o.session.calls ∧ o.session.calls.length ≤ session.calls.length + 2 ∧
      (o.session.calls.length = session.calls.length + 2 →
        ∃ rest args b, messageText = lit "++" ++ rest ∧
          strings.Fields rest = lit "mute" :: args ∧
          o.session.calls =
            session.calls ++ [SessionCall.SetAudioMuted b, SessionCall.SetVideoMuted b]) := by
    intro o ho
    rw [ho]
    refine ⟨List.prefix_refl _, by omega, fun h => ?_⟩
    omega
  by_cases hp : lit "++" <+: messageText
  · obtain ⟨rest, rfl⟩ := hp
    cases hw : strings.Fields rest with
    | nil =>
      apply same
      rw [handleChatMessage_no_tokens intSize session body rest hw]
    | cons verb args =>
      rcases handleChatMessage_session_cases intSize session body rest verb args hw with
        h | ⟨c, h⟩ | ⟨hv, b, h⟩
      · exact same _ h
      · rw [h]
        simp only [ZoomSession.record, List.length_append, List.length_singleton]
        refine ⟨List.prefix_append _ _, by omega, fun hl => ?_⟩
        omega
      · rw [h]
        simp only [ZoomSession.SetAudioMuted, ZoomSession.SetVideoMuted, ZoomSession.record,
          List.length_append, List.length_singleton, List.append_assoc, List.singleton_append]
        refine ⟨List.prefix_append _ _, by simp, fun _ => ?_⟩
        exact ⟨rest, args, b, rfl, by rw [hw, hv], rfl⟩
  · apply same
    rw [handleChatMessage_unprefixed intSize session body messageText hp]

/-- C16: for the verbs "mute", "screenshare" and "chatlevel", two command
texts with the same verb and the same first argument (or both without
argument) make handleChatMessage end the same way, with the same calls,
whatever further arguments follow. -/
theorem C16_first_argument_decides (intSize : Nat) (session : ZoomSession)
    (body1 body2 : ConferenceChatIndication) (rest1 rest2 verb : GoString)
    (args1 args2 : List GoString)
    (hv : verb = lit "mute" ∨ verb = lit "screenshare" ∨ verb = lit "chatlevel")
    (h1 : strings.Fields rest1 = verb :: args1)
    (h2 : strings.Fields rest2 = verb :: args2)
    (hfirst : args1.head? = args2.head?) :
    handleChatMessage intSize session body1 (lit "++" ++ rest1) =
      handleChatMessage intSize session body2 (lit "++" ++ rest2) := by
  obtain ⟨d1, d2, d3, d4, d5, d6, -⟩ := verbs_distinct
  cases args1 with
  | nil =>
    cases args2 with
    | nil =>
      rcases hv with rfl | rfl | rfl <;>
        simp [handleChatMessage, MESSAGE_PREFIX, HasPrefix_append, TrimPrefix_append, h1, h2,
          sliceFrom1, index0, d1, d2, d3, d4, d5, d6]
    | cons b bs => simp at hfirst
  | cons a as =>
    cases args2 with
    | nil => simp at hfirst
    | cons b bs =>
      simp only [List.head?_cons, Option.some.injEq] at hfirst
      subst hfirst
      rcases hv with rfl | rfl | rfl <;>
        simp [handleChatMessage, MESSAGE_PREFIX, HasPrefix_append, TrimPrefix_append, h1, h2,
          sliceFrom1, index0, d1, d2, d3, d4, d5, d6]

/-- C16 at "++mute off" and "++mute off please now": the same two calls. -/
theorem C16_first_argument_decides_witness :
    (handleChatMessage 64 sampleSession ⟨3, lit "++mute off please now"⟩
        (lit "++" ++ lit "mute off please now")).session.calls =
      [SessionCall.SetAudioMuted false, SessionCall.SetVideoMuted false] :=
  (congrArg (fun o => o.session.calls)
    (C16_first_argument_decides 64 sampleSession ⟨3, lit "++mute off"⟩
      ⟨3, lit "++mute off please now"⟩ (lit "mute off") (lit "mute off please now")
      (lit "mute") [lit "off"] [lit "off", lit "please", lit "now"]
      (Or.inl rfl) (by decide) (by decide) rfl)).symm.trans (by decide)

/-- C17: for the verbs "rename", "mute", "screenshare" and "chatlevel", two
texts starting with "++" whose remainders have the same tokens make
handleChatMessage end the same way: same calls, same returned value. -/
theorem C17_tokens_decide (intSize : Nat) (session : ZoomSession)
    (body1 body2 : ConferenceChatIndication) (rest1 rest2 verb : GoString)
    (args : List GoString)
    (hv : verb = lit "rename" ∨ verb = lit "mute" ∨ verb = lit "screenshare" ∨
      verb = lit "chatlevel")
    (h1 : strings.Fields rest1 = verb :: args)
    (h2 : strings.Fields rest2 = strings.Fields rest1) :
    handleChatMessage intSize session body1 (lit "++" ++ rest1) =
      handleChatMessage intSize session body2 (lit "++" ++ rest2) := by
  obtain ⟨d1, d2, d3, d4, d5, d6, -⟩ := verbs_distinct
  rw [h1] at h2
  rcases hv with rfl | rfl | rfl | rfl <;> cases args <;>
    simp [handleChatMessage, MESSAGE_PREFIX, HasPrefix_append, TrimPrefix_append, h1, h2,
      sliceFrom1, index0, d1, d2, d3, d4, d5, d6]

/-- C17 at "++rename Bot Two" and "++  rename   Bot \t Two ": the second makes
the call RenameMe("Bot Two") as the first does. -/
theorem C17_tokens_decide_witness :
    (handleChatMessage 64 sampleSession ⟨3, lit "++  rename   Bot \t Two "⟩
        (lit "++" ++ lit "  rename   Bot \t Two ")).session.calls =
      [SessionCall.RenameMe (lit "Bot Two")] :=
  (congrArg (fun o => o.session.calls)
    (C17_tokens_decide 64 sampleSession ⟨3, lit "++rename Bot Two"⟩
      ⟨3, lit "++  rename   Bot \t Two "⟩ (lit "rename Bot Two")
      (lit "  rename   Bot \t Two ") (lit "rename") [lit "Bot", lit "Two"]
      (Or.inl rfl) (by decide) (by decide))).symm.trans (by decide)

end Zoomer
